import Mathlib

/-!
Verification of the Ukraine-war archive scraper family
(`ukraine_war_scraper_improved.py`, `scripts/kraine_war_scraper_improved.py`,
`scripts/wayback_scraper.py`, `scripts/arquivo_scraper.py`).

The Python sources are shallowly embedded: pure helpers become Lean
functions, the network and the other external collaborators (HTTP
transport, boilerplate extractor, translator, `json`, `hashlib`,
`str.lower`) are modelled by explicit event lists / oracle functions that
a run consumes, and the mutable per-run context (request tracker,
statistics, seen set, output files) is threaded as explicit state.
-/

set_option linter.unusedVariables false

namespace Scraper

/-! ## String primitives (models of the Python built-ins the scraper uses) -/

/-- Containment test for contiguous substrings: `hasSub hay needle` is the
model of Python's `needle in hay` on strings (both handled as their list
of code points). -/
def hasSub (hay needle : List Char) : Bool :=
  if needle.isPrefixOf hay then true
  else
    match hay with
    | [] => false
    | _ :: t => hasSub t needle

/-- Model of Python `str.lower` on one code point.  The scraper's data is
ASCII, Latin-1 and Cyrillic, so the map lowers the ASCII letters, the
Latin-1 uppercase block (except the multiplication sign) and the basic
Cyrillic uppercase blocks, leaving every other code point unchanged. -/
def pyLowerChar (c : Char) : Char :=
  if 65 ≤ c.toNat ∧ c.toNat ≤ 90 then Char.ofNat (c.toNat + 32)
  else if 0xC0 ≤ c.toNat ∧ c.toNat ≤ 0xDE ∧ c.toNat ≠ 0xD7 then Char.ofNat (c.toNat + 32)
  else if 0x410 ≤ c.toNat ∧ c.toNat ≤ 0x42F then Char.ofNat (c.toNat + 32)
  else if 0x400 ≤ c.toNat ∧ c.toNat ≤ 0x40F then Char.ofNat (c.toNat + 80)
  else c

/-- Model of Python `str.lower`, applied code point by code point. -/
def pyLower (s : String) : String := String.mk (s.toList.map pyLowerChar)

/-- Python `kw in combined` as used by the relevance scorer. -/
def pyIn (needle hay : String) : Bool := hasSub hay.toList needle.toList

/-- Model of Python `str.startswith`, by character-list prefix. -/
def pyStartsWith (s pre : String) : Bool := pre.toList.isPrefixOf s.toList

/-- Model of Python `str.strip()`: drop whitespace from both ends. -/
def strStrip (s : String) : String :=
  String.mk (((s.toList.dropWhile Char.isWhitespace).reverse.dropWhile
    Char.isWhitespace).reverse)

/-- Split a character list at every separator character, keeping empty
pieces, as Python `str.split(sep)` does. -/
def splitChars (p : Char → Bool) : List Char → List (List Char)
  | [] => [[]]
  | c :: cs =>
    if p c then [] :: splitChars p cs
    else
      match splitChars p cs with
      | [] => [[c]]
      | h :: t => (c :: h) :: t

/-- Index of the first occurrence of `needle` in `hay`
(model of Python `hay.find(needle)` restricted to the found case). -/
def findSub (hay needle : List Char) : Option Nat :=
  if needle.isPrefixOf hay then some 0
  else
    match hay with
    | [] => none
    | _ :: t => (findSub t needle).map (· + 1)

/-- Split at the first occurrence of `needle`, returning the part before
and the part after it (the backbone of Python `s.split(sep, 1)`). -/
def splitOnceAux (hay needle : List Char) : Option (List Char × List Char) :=
  if needle.isPrefixOf hay then some ([], hay.drop needle.length)
  else
    match hay with
    | [] => none
    | c :: t => (splitOnceAux t needle).map (fun p => (c :: p.1, p.2))

/-- Model of Python `s.split(sep, 1)`: two pieces when the separator
occurs, one piece (the whole string) otherwise. -/
def pySplitOnce (s sep : String) : List String :=
  match splitOnceAux s.toList sep.toList with
  | some (b, a) => [String.mk b, String.mk a]
  | none => [s]

/-- Expansion applied to a single character by
`clean_text`'s chained replaces: newline becomes a literal backslash-n,
carriage return is deleted, tab becomes a space. -/
def cleanStep (c : Char) : List Char :=
  if c = '\n' then ['\\', 'n']
  else if c = '\r' then []
  else if c = '\t' then [' ']
  else [c]

/-- Embedding of the `clean_text` closure of `process_record`
(lines 515-519 of `ukraine_war_scraper_improved.py`): the replace chain
followed by whitespace-run collapsing Python-style and a
final strip. -/
def clean_text (s : String) : String :=
  let replaced := String.mk (s.toList.map cleanStep).flatten
  strStrip (" ".intercalate (((splitChars (fun c => c.isWhitespace)
    replaced.toList).map String.mk).filter (fun w => w != "")))

/-- The `clean_text` closure maps Python `None` to `None`. -/
def clean_text_opt : Option String → Option String
  | none => none
  | some s => some (clean_text s)

/-- Model of `urllib.parse.urlparse(url).netloc` for the scraper's
http(s) URLs: the text between the first `//` and the next
path/query/fragment delimiter. -/
def netloc (url : String) : String :=
  match splitOnceAux url.toList "//".toList with
  | none => ""
  | some (_, rest) =>
    String.mk (rest.takeWhile (fun c => (c != '/') && (c != '?') && (c != '#')))

/-- Model of the `hashlib.md5(url.encode).hexdigest()` fingerprint.  The
run logic uses the digest only as a deterministic opaque key for the seen
set, so the model keeps the URL itself as its fingerprint (an injective
stand-in for the hex digest). -/
def md5 (s : String) : String := s

/-! ## Configuration constants (`Config` in `ukraine_war_scraper_improved.py`) -/

namespace Config

/-- Keyword list `Config.HIGH_RELEVANCE_KEYWORDS` of
`ukraine_war_scraper_improved.py` (each match is worth +3). -/
def HIGH_RELEVANCE_KEYWORDS : List String := [
  "ukraine invasion", "russia invades ukraine", "putin invades",
  "russian invasion", "ukraine war", "russia ukraine war",
  "ukrainian war", "kyiv attack", "kiev attack", "mariupol",
  "bucha", "irpin", "kharkiv", "zaporizhzhia", "odesa",
  "missile strike", "drone attack", "war crimes", "atrocities",
  "kherson counteroffensive", "bakhmut",
  "invasão russa", "guerra na ucrânia", "crimes de guerra",
  "massacre de bucha", "tropas russas", "ataque de mísseis",
  "contraofensiva",
  "донбас", "донбасс", "спецоперация", "война на украине",
  "ракетный обстрел", "территориальная целостность",
  "російське вторгнення", "війна в україні", "ракетний удар",
  "збройні сили", "деокупація"]

/-- Keyword list `Config.MEDIUM_RELEVANCE_KEYWORDS` of
`ukraine_war_scraper_improved.py` (each match is worth +2; note that
"кремль" occurs twice in the source and therefore counts twice). -/
def MEDIUM_RELEVANCE_KEYWORDS : List String := [
  "ukraine", "russia", "putin", "zelensky", "zelenskyy",
  "russian troops", "ukrainian forces", "nato ukraine", "weapon supply",
  "donbas", "donbass", "kyiv", "kiev", "crimea", "sanctions",
  "oil embargo", "russian economy", "refugee crisis", "grain export",
  "mobilization", "international criminal court", "united nations",
  "sanções", "refugiados", "conflito", "ajuda militar",
  "economia russa", "crise de energia", "otan",
  "вооруженные силы", "санкции", "беженцы", "конфликт",
  "помощь украине", "кремль",
  "нато", "путін", "допомога", "санкції", "зброя", "кремль",
  "президент зеленський"]

/-- Keyword list `Config.EXCLUDE_KEYWORDS` of
`ukraine_war_scraper_improved.py` (each match is worth -5). -/
def EXCLUDE_KEYWORDS : List String := [
  "recipe", "weather forecast", "sports", "football", "soccer",
  "celebrity", "fashion", "entertainment", "movie", "music",
  "poker", "gaming", "bitcoin", "cryptocurrency", "real estate market"]

/-- Constant `Config.MAX_RETRIES`. -/
def MAX_RETRIES : Nat := 3

/-- Constant `Config.MAX_REQUESTS_PER_RUN`. -/
def MAX_REQUESTS_PER_RUN : Nat := 200

end Config

/-! ## Relevance scorer -/

/-- Lower-cased combination `f"{title} {text}".lower()` built at the top of
`calculate_relevance_score` (note the argument order of the Python
function: text first, then title). -/
def combinedLower (text title : String) : String :=
  pyLower (title ++ " " ++ text)

/-- Embedding of `calculate_relevance_score(text, title="")` from
`ukraine_war_scraper_improved.py`: three keyword loops accumulating an
integer score and the list of matched inclusion keywords. -/
def calculate_relevance_score (text title : String) : Int × List String :=
  let combined := combinedLower text title
  let hm := Config.HIGH_RELEVANCE_KEYWORDS.foldl
    (fun acc kw => if pyIn kw combined then (acc.1 + 3, acc.2 ++ [kw]) else acc)
    ((0 : Int), ([] : List String))
  let mm := Config.MEDIUM_RELEVANCE_KEYWORDS.foldl
    (fun acc kw => if pyIn kw combined then (acc.1 + 2, acc.2 ++ [kw]) else acc) hm
  let score := Config.EXCLUDE_KEYWORDS.foldl
    (fun sc kw => if pyIn kw combined then sc - 5 else sc) mm.1
  (score, mm.2)

/-- Embedding of `is_relevant(text, title="", min_score=4)`. -/
def is_relevant_min (text title : String) (min_score : Int) : Bool :=
  decide (min_score ≤ (calculate_relevance_score text title).1)

/-- The call shape `is_relevant(text, title)` used by `process_record`,
with the default threshold `min_score=4`. -/
def is_relevant (text title : String) : Bool := is_relevant_min text title 4

/-- Number of keywords of a list matching a combined string (counted with
the multiplicity they have in the keyword list, exactly as the Python
loops do). -/
def matchCount (kws : List String) (c : String) : Nat :=
  (kws.filter (fun kw => pyIn kw c)).length

/-! ## Model of the `json` serializer (`ensure_ascii=False`) -/

/-- Decimal digit character. -/
def digitChar (n : Nat) : Char :=
  if n = 0 then '0' else if n = 1 then '1' else if n = 2 then '2'
  else if n = 3 then '3' else if n = 4 then '4' else if n = 5 then '5'
  else if n = 6 then '6' else if n = 7 then '7' else if n = 8 then '8'
  else '9'

/-- Lower-case hexadecimal digit character. -/
def hexDigit (n : Nat) : Char :=
  if n < 10 then digitChar n
  else if n = 10 then 'a' else if n = 11 then 'b' else if n = 12 then 'c'
  else if n = 13 then 'd' else if n = 14 then 'e' else 'f'

/-- Decimal digits of a natural number, most significant first.  The
first argument is structural fuel (any value above the digit count
works). -/
def natToCharsAux : Nat → Nat → List Char
  | 0, _ => []
  | Nat.succ fuel, n =>
    if n < 10 then [digitChar n]
    else natToCharsAux fuel (n / 10) ++ [digitChar (n % 10)]

/-- Decimal rendering of a natural number. -/
def natToStr (n : Nat) : String := String.mk (natToCharsAux (n + 1) n)

/-- Decimal rendering of a Python integer. -/
def intToStr (i : Int) : String :=
  if i < 0 then "-" ++ natToStr i.natAbs else natToStr i.natAbs

/-- JSON escaping of one character as `json.dump` performs it with
`ensure_ascii=False`: quote, backslash and control characters are
escaped, everything else is emitted verbatim. -/
def jescape (c : Char) : List Char :=
  if c = '"' then ['\\', '"']
  else if c = '\\' then ['\\', '\\']
  else if c = '\n' then ['\\', 'n']
  else if c = '\r' then ['\\', 'r']
  else if c = '\t' then ['\\', 't']
  else if c.toNat = 8 then ['\\', 'b']
  else if c.toNat = 12 then ['\\', 'f']
  else if c.toNat < 32 then ['\\', 'u', '0', '0', hexDigit (c.toNat / 16), hexDigit (c.toNat % 16)]
  else [c]

/-- JSON string literal with escapes. -/
def jstr (s : String) : String :=
  "\"" ++ String.mk (s.toList.map jescape).flatten ++ "\""

/-- JSON rendering of an optional string (Python `None` becomes `null`). -/
def jopt : Option String → String
  | none => "null"
  | some v => jstr v

/-- Python `sep.join(parts)`. -/
def joinSep (sep : String) : List String → String
  | [] => ""
  | [x] => x
  | x :: xs => x ++ sep ++ joinSep sep xs

/-- JSON rendering of a list of strings with `json.dump`'s default
separator `", "`. -/
def jlist (l : List String) : String :=
  "[" ++ joinSep ", " (l.map jstr) ++ "]"

/-! ## Request tracker (`RequestTracker` in `ukraine_war_scraper_improved.py`) -/

/-- State of the `RequestTracker` class: request counter, configured
budget and blocked flag (the wall-clock field `last_request_time` only
feeds the sleep in `wait_if_needed` and is not part of the model). -/
structure RequestTracker where
  request_count : Nat
  max_requests : Nat
  blocked : Bool
deriving DecidableEq

/-- Fresh tracker as built by `RequestTracker.__init__`. -/
def RequestTracker.init (max_requests : Nat) : RequestTracker :=
  { request_count := 0, max_requests := max_requests, blocked := false }

/-- Embedding of `RequestTracker.can_make_request`. -/
def RequestTracker.can_make_request (t : RequestTracker) : Bool :=
  if t.blocked then false
  else if t.max_requests ≤ t.request_count then false
  else true

/-- Embedding of `RequestTracker.record_request(status_code)`: the
counter always advances and a 429/403 status raises the blocked flag
(which is never cleared). -/
def RequestTracker.record_request (t : RequestTracker) (status_code : Nat) : RequestTracker :=
  { t with request_count := t.request_count + 1,
           blocked := t.blocked || (status_code == 429 || status_code == 403) }

/-- Embedding of `RequestTracker.is_blocked`. -/
def RequestTracker.is_blocked (t : RequestTracker) : Bool := t.blocked

/-! ## Network environment events

Each outbound `session.get` consumes one event from an environment list:
either the transport raised before any response was recorded (`exc`,
covering timeouts and connection errors), or a response arrived with a
status code and a body.  A CDX body is its parsed record list (an empty
list also covers an unparseable or empty body, which the source treats
identically).  A WARC body carries the result of `gzip.decompress`
(`none` when the decompressor raises) together with the raw
`errors="ignore"` decode of the undecompressed bytes. -/

/-- One CDX record as parsed from a CDX index response line; every field
is read with `record.get`, hence optional. -/
structure CdxRec where
  url : Option String
  filename : Option String
  offset : Option Int
  length : Option Int
  timestamp : Option String
deriving DecidableEq

/-- Environment event for one `session.get` issued by `query_cdx`. -/
inductive CdxEvent where
  | exc : CdxEvent
  | resp (status : Nat) (records : List CdxRec) : CdxEvent
deriving DecidableEq

/-- Environment event for one `session.get` issued by
`fetch_warc_range`. -/
inductive WarcEvent where
  | exc : WarcEvent
  | resp (status : Nat) (gzipResult : Option String) (rawDecoded : String) : WarcEvent
deriving DecidableEq

/-- Head of a CDX environment (a missing event behaves like a raised
request). -/
def nextCdxEvent : List CdxEvent → CdxEvent × List CdxEvent
  | [] => (CdxEvent.exc, [])
  | e :: rest => (e, rest)

/-- Head of a WARC environment. -/
def nextWarcEvent : List WarcEvent → WarcEvent × List WarcEvent
  | [] => (WarcEvent.exc, [])
  | e :: rest => (e, rest)

/-- Result of one `query_cdx` invocation: final tracker, parsed records,
number of `session.get` calls issued, and how many of those calls were
issued while the tracker was already blocked. -/
structure CdxOut where
  tracker : RequestTracker
  records : List CdxRec
  issued : Nat
  badIssued : Nat

/-- Result of one `fetch_warc_range` invocation; `header` is the Range
header the function computed for its request. -/
structure FetchOut where
  tracker : RequestTracker
  result : Option String
  issued : Nat
  badIssued : Nat
  header : String

/-! ## `query_cdx` -/

/-- Retry/endpoint loop of `query_cdx` (lines 305-328 of
`ukraine_war_scraper_improved.py`).  The fuel counts the remaining
`session.get` sites: `MAX_RETRIES` attempts over two endpoints.  A 200
response with records returns them; a 200 response without usable
records falls through to the next endpoint/attempt; a 429/403 response
is recorded (blocking the tracker) and returns immediately; any other
status or a raised request falls through. -/
def query_cdx_loop : Nat → RequestTracker → List CdxEvent → CdxOut
  | 0, t, _ => { tracker := t, records := [], issued := 0, badIssued := 0 }
  | Nat.succ fuel, t, env =>
    let (ev, rest) := nextCdxEvent env
    let bad : Nat := if t.blocked then 1 else 0
    match ev with
    | CdxEvent.exc =>
      let o := query_cdx_loop fuel t rest
      { o with issued := o.issued + 1, badIssued := o.badIssued + bad }
    | CdxEvent.resp status records =>
      let t1 := t.record_request status
      if status == 200 then
        if records.isEmpty then
          let o := query_cdx_loop fuel t1 rest
          { o with issued := o.issued + 1, badIssued := o.badIssued + bad }
        else { tracker := t1, records := records, issued := 1, badIssued := bad }
      else if status == 429 || status == 403 then
        { tracker := t1, records := [], issued := 1, badIssued := bad }
      else
        let o := query_cdx_loop fuel t1 rest
        { o with issued := o.issued + 1, badIssued := o.badIssued + bad }

/-- Embedding of `query_cdx`: guarded by `can_make_request`, then up to
`MAX_RETRIES * 2` requests (two endpoints per attempt). -/
def query_cdx (t : RequestTracker) (env : List CdxEvent) : CdxOut :=
  if t.can_make_request then query_cdx_loop (Config.MAX_RETRIES * 2) t env
  else { tracker := t, records := [], issued := 0, badIssued := 0 }

/-! ## `fetch_warc_range` (core and scripts variants) -/

/-- Range header `f"bytes={offset}-{int(offset) + int(length) - 1}"`. -/
def rangeHeader (offset length : Int) : String :=
  "bytes=" ++ intToStr offset ++ "-" ++ intToStr (offset + length - 1)

/-- Intermediate result of the fetch retry loops. -/
structure FetchLoopOut where
  tracker : RequestTracker
  result : Option String
  issued : Nat
  badIssued : Nat

/-- Retry loop of the CORE `fetch_warc_range` (lines 341-359 of
`ukraine_war_scraper_improved.py`).  On a 200/206 response the body is
gzip-decompressed; if the decompressor raises, the exception is caught
by the catch-all handler and the loop retries — there is NO raw-decode
fallback in this variant.  A 429/403 response is recorded and returns
`None` immediately. -/
def fetch_warc_range_loop : Nat → RequestTracker → List WarcEvent → FetchLoopOut
  | 0, t, _ => { tracker := t, result := none, issued := 0, badIssued := 0 }
  | Nat.succ fuel, t, env =>
    let (ev, rest) := nextWarcEvent env
    let bad : Nat := if t.blocked then 1 else 0
    match ev with
    | WarcEvent.exc =>
      let o := fetch_warc_range_loop fuel t rest
      { o with issued := o.issued + 1, badIssued := o.badIssued + bad }
    | WarcEvent.resp status gzipResult rawDecoded =>
      let t1 := t.record_request status
      if status == 200 || status == 206 then
        match gzipResult with
        | some content => { tracker := t1, result := some content, issued := 1, badIssued := bad }
        | none =>
          let o := fetch_warc_range_loop fuel t1 rest
          { o with issued := o.issued + 1, badIssued := o.badIssued + bad }
      else if status == 429 || status == 403 then
        { tracker := t1, result := none, issued := 1, badIssued := bad }
      else
        let o := fetch_warc_range_loop fuel t1 rest
        { o with issued := o.issued + 1, badIssued := o.badIssued + bad }

/-- Embedding of the CORE `fetch_warc_range(warc_path, offset, length)`:
guard, Range header, then up to `MAX_RETRIES` requests. -/
def fetch_warc_range (t : RequestTracker) (warc_path : String) (offset length : Int)
    (env : List WarcEvent) : FetchOut :=
  let header := rangeHeader offset length
  if t.can_make_request then
    let o := fetch_warc_range_loop Config.MAX_RETRIES t env
    { tracker := o.tracker, result := o.result, issued := o.issued,
      badIssued := o.badIssued, header := header }
  else { tracker := t, result := none, issued := 0, badIssued := 0, header := header }

/-- Retry loop of the SCRIPTS variant `fetch_warc_range` (lines 370-395
of `scripts/kraine_war_scraper_improved.py`): identical except that a
failed gzip decompression falls back to decoding the raw bytes with
`errors="ignore"` (which cannot fail). -/
def kraine_fetch_warc_range_loop : Nat → RequestTracker → List WarcEvent → FetchLoopOut
  | 0, t, _ => { tracker := t, result := none, issued := 0, badIssued := 0 }
  | Nat.succ fuel, t, env =>
    let (ev, rest) := nextWarcEvent env
    let bad : Nat := if t.blocked then 1 else 0
    match ev with
    | WarcEvent.exc =>
      let o := kraine_fetch_warc_range_loop fuel t rest
      { o with issued := o.issued + 1, badIssued := o.badIssued + bad }
    | WarcEvent.resp status gzipResult rawDecoded =>
      let t1 := t.record_request status
      if status == 200 || status == 206 then
        match gzipResult with
        | some content => { tracker := t1, result := some content, issued := 1, badIssued := bad }
        | none => { tracker := t1, result := some rawDecoded, issued := 1, badIssued := bad }
      else if status == 429 || status == 403 then
        { tracker := t1, result := none, issued := 1, badIssued := bad }
      else
        let o := kraine_fetch_warc_range_loop fuel t1 rest
        { o with issued := o.issued + 1, badIssued := o.badIssued + bad }

/-- Embedding of the SCRIPTS variant `fetch_warc_range`. -/
def kraine_fetch_warc_range (t : RequestTracker) (warc_path : String) (offset length : Int)
    (env : List WarcEvent) : FetchOut :=
  let header := rangeHeader offset length
  if t.can_make_request then
    let o := kraine_fetch_warc_range_loop Config.MAX_RETRIES t env
    { tracker := o.tracker, result := o.result, issued := o.issued,
      badIssued := o.badIssued, header := header }
  else { tracker := t, result := none, issued := 0, badIssued := 0, header := header }

/-! ## Statistics (`ScraperStats`) -/

/-- Run statistics.  The Python `Counter` fields `errors` and `sources`
are modelled as the list of their increments, so the count of a key is
`List.count key`. -/
structure ScraperStats where
  cdx_queries : Nat
  records_fetched : Nat
  records_processed : Nat
  articles_extracted : Nat
  articles_relevant : Nat
  articles_saved : Nat
  duplicates_skipped : Nat
  errors : List String
  sources : List String
deriving DecidableEq

/-- Fresh statistics as built by `ScraperStats.__init__`. -/
def ScraperStats.init : ScraperStats :=
  { cdx_queries := 0, records_fetched := 0, records_processed := 0,
    articles_extracted := 0, articles_relevant := 0, articles_saved := 0,
    duplicates_skipped := 0, errors := [], sources := [] }

/-! ## Result records and the output-log writes -/

/-- The result dictionary built by the core `process_record`
(lines 521-529 of `ukraine_war_scraper_improved.py`), field for field in
the source's key order. -/
structure ResultRecord where
  url : String
  source : String
  country : String
  title : String
  title_en : Option String
  text : String
  text_en : Option String
  translation_status : String
  crawl_timestamp : Option String
  relevance_score : Int
  matched_keywords : List String
  scraped_at : String
  hash : String

/-- Serialization of the result record exactly as
`json.dump(result, f, ensure_ascii=False)` renders it (dict insertion
order, default separators). -/
def dumpRecord (r : ResultRecord) : String :=
  "\x7b\"url\": " ++ jstr r.url
  ++ ", \"source\": " ++ jstr r.source
  ++ ", \"country\": " ++ jstr r.country
  ++ ", \"title\": " ++ jstr r.title
  ++ ", \"title_en\": " ++ jopt r.title_en
  ++ ", \"text\": " ++ jstr r.text
  ++ ", \"text_en\": " ++ jopt r.text_en
  ++ ", \"translation_status\": " ++ jstr r.translation_status
  ++ ", \"crawl_timestamp\": " ++ jopt r.crawl_timestamp
  ++ ", \"relevance_score\": " ++ intToStr r.relevance_score
  ++ ", \"matched_keywords\": " ++ jlist r.matched_keywords
  ++ ", \"scraped_at\": " ++ jstr r.scraped_at
  ++ ", \"hash\": " ++ jstr r.hash
  ++ "\x7d"

/-- Core save step (lines 538-540 of `ukraine_war_scraper_improved.py`):
`open(file_path, "a")`, `json.dump(result, f, ensure_ascii=False)`,
`f.write('\n')` — a pure append of one serialized line to whatever the
per-category per-day `.jsonl` file already contains. -/
def save_article_line (fileContent : String) (result : ResultRecord) : String :=
  fileContent ++ dumpRecord result ++ "\n"

/-- Rendering of one flat string-keyed object at array nesting level as
`json.dump(..., ensure_ascii=False, indent=4)` produces it. -/
def dumpObjIndent4 (kvs : List (String × String)) : String :=
  match kvs with
  | [] => "{}"
  | _ => "\x7b\n"
      ++ joinSep ",\n" (kvs.map (fun kv => "        " ++ jstr kv.1 ++ ": " ++ jstr kv.2))
      ++ "\n    \x7d"

/-- Rendering of a whole article array as
`json.dump(articles, f, ensure_ascii=False, indent=4)` produces it. -/
def dumpArrIndent4 (objs : List (List (String × String))) : String :=
  match objs with
  | [] => "[]"
  | _ => "[\n"
      ++ joinSep ",\n" (objs.map (fun o => "    " ++ dumpObjIndent4 o))
      ++ "\n]"

/-- Embedding of `save_article` from `scripts/wayback_scraper.py`
(lines 220-236): the articles already on disk are read back and parsed
(modelled by the `existing` argument), the new article is appended to
the parsed array, and the WHOLE array is re-serialized and written over
the file; the function's output is the file's entire new content. -/
def wayback_save_article (existing : List (List (String × String)))
    (article : List (String × String)) : String :=
  dumpArrIndent4 (existing ++ [article])

/-! ## `process_record` (core variant) -/

/-- Extractor output `{title, text}` (the boilerplate extractor is an
external collaborator). -/
structure Article where
  title : String
  text : String

/-- Environment consumed while processing one record: the WARC fetch
events, the extractor oracle, the translator outcome (`none` models a
raised translation), whether the output-file append succeeds, and the
wall-clock timestamp `now_iso()`. -/
structure RecordEnv where
  warcEnv : List WarcEvent
  extract : String → Option Article
  translateResult : Option String
  saveOk : Bool
  nowIso : String

/-- Head of a record-environment list (a missing environment provides no
events, no extraction and a succeeding save). -/
def nextRecordEnv : List RecordEnv → RecordEnv × List RecordEnv
  | [] => ({ warcEnv := [], extract := fun _ => none, translateResult := none,
             saveOk := true, nowIso := "" }, [])
  | e :: rest => (e, rest)

/-- Marker the core translation path uses to translate title and text in
one API call. -/
def MARKER : String := "__TITLE_AND_TEXT_SEP__"

/-- Outcome of the translation block of `process_record`. -/
structure TransOut where
  title_en : Option String
  text_en : Option String
  translation_status : String
  stats : ScraperStats
  called : Bool

/-- Embedding of the translation block of `process_record`
(lines 477-513 of `ukraine_war_scraper_improved.py`). -/
def translationBlock (country : String) (translatorPresent : Bool) (title text : String)
    (translateResult : Option String) (stats : ScraperStats) : TransOut :=
  if country = "EN" then
    { title_en := some title, text_en := some text,
      translation_status := "native_english", stats := stats, called := false }
  else if translatorPresent then
    match translateResult with
    | none =>
      { title_en := none, text_en := none, translation_status := "failed",
        stats := { stats with errors := stats.errors ++ ["translation_failed"] },
        called := true }
    | some translated =>
      match pySplitOnce translated MARKER with
      | [before, after] =>
        { title_en := some (strStrip before), text_en := some (strStrip after),
          translation_status := "success", stats := stats, called := true }
      | _ =>
        { title_en := some translated, text_en := some translated,
          translation_status := "partial_success",
          stats := { stats with errors := stats.errors ++ ["translation_split_failed"] },
          called := true }
  else
    { title_en := none, text_en := none,
      translation_status := "translator_not_available", stats := stats, called := false }

/-- HTML preamble stripping of `process_record` (lines 452-459): search
the lowered content for the archive-format markers and drop everything
before the first one found. -/
def stripPreamble (content : String) : String :=
  let lc := (pyLower content).toList
  let idx :=
    match findSub lc (pyLower "<!doctype").toList with
    | some i => some i
    | none =>
      match findSub lc (pyLower "<html").toList with
      | some i => some i
      | none => findSub lc (pyLower "<HTML").toList
  match idx with
  | some i => String.mk (content.toList.drop i)
  | none => content

/-- Full observable outcome of one `process_record` call. -/
structure ProcOut where
  tracker : RequestTracker
  seen : List String
  stats : ScraperStats
  result : Option ResultRecord
  fetchIssued : Nat
  badIssued : Nat
  fileAppend : Option String
  saveAttempted : Bool
  translateCalled : Bool
  badTranslate : Bool

/-- Early-return outcome: nothing but (possibly) the statistics
changed. -/
def ProcOut.skip (t : RequestTracker) (seen : List String) (stats : ScraperStats) : ProcOut :=
  { tracker := t, seen := seen, stats := stats, result := none,
    fetchIssued := 0, badIssued := 0, fileAppend := none,
    saveAttempted := false, translateCalled := false, badTranslate := false }

/-- Embedding of the core `process_record(record, country, seen_set,
out_dir, stats, translator)` (lines 422-552 of
`ukraine_war_scraper_improved.py`).  The two branches of the
"low-quality URL" check both compute `md5(url)`, so the model computes
it unconditionally.  A save failure (`saveOk = false`) models an
exception raised by the file write before `seen_set.add`,
`articles_saved` and `sources` are touched. -/
def process_record (t : RequestTracker) (record : CdxRec) (country : String)
    (seen_set : List String) (stats : ScraperStats) (translatorPresent : Bool)
    (env : RecordEnv) : ProcOut :=
  if t.is_blocked then ProcOut.skip t seen_set stats
  else match record.url with
  | none => ProcOut.skip t seen_set stats
  | some url =>
    if ¬ pyStartsWith url "http" then ProcOut.skip t seen_set stats
    else
      let url_hash := md5 url
      if seen_set.contains url_hash then
        ProcOut.skip t seen_set
          { stats with duplicates_skipped := stats.duplicates_skipped + 1 }
      else match record.filename, record.offset, record.length with
      | some warc, some offset, some length =>
        if warc = "" then ProcOut.skip t seen_set stats
        else
          let stats := { stats with records_processed := stats.records_processed + 1 }
          let f := fetch_warc_range t warc offset length env.warcEnv
          let fetchFailed : ProcOut :=
            { ProcOut.skip f.tracker seen_set
                { stats with errors := stats.errors ++ ["warc_fetch_failed"] } with
              fetchIssued := f.issued, badIssued := f.badIssued }
          match f.result with
          | none => fetchFailed
          | some content =>
            if content = "" then fetchFailed
            else
              let html := stripPreamble content
              let extractionFailed : ProcOut :=
                { ProcOut.skip f.tracker seen_set
                    { stats with errors := stats.errors ++ ["extraction_failed"] } with
                  fetchIssued := f.issued, badIssued := f.badIssued }
              match env.extract html with
              | none => extractionFailed
              | some article =>
                if article.text.length < 100 then extractionFailed
                else
                  let stats := { stats with articles_extracted := stats.articles_extracted + 1 }
                  let title := article.title
                  let text := article.text
                  if ¬ is_relevant text title then
                    { ProcOut.skip f.tracker seen_set stats with
                      fetchIssued := f.issued, badIssued := f.badIssued }
                  else
                    let stats := { stats with articles_relevant := stats.articles_relevant + 1 }
                    let sk := calculate_relevance_score text title
                    let tr := translationBlock country translatorPresent title text
                        env.translateResult stats
                    let result : ResultRecord :=
                      { url := url, source := netloc url, country := country,
                        title := clean_text title, title_en := clean_text_opt tr.title_en,
                        text := clean_text text, text_en := clean_text_opt tr.text_en,
                        translation_status := tr.translation_status,
                        crawl_timestamp := record.timestamp,
                        relevance_score := sk.1, matched_keywords := sk.2.take 5,
                        scraped_at := env.nowIso, hash := url_hash }
                    if env.saveOk then
                      { tracker := f.tracker, seen := seen_set ++ [url_hash],
                        stats := { tr.stats with
                          articles_saved := tr.stats.articles_saved + 1,
                          sources := tr.stats.sources ++ [result.source] },
                        result := some result,
                        fetchIssued := f.issued, badIssued := f.badIssued,
                        fileAppend := some (dumpRecord result ++ "\n"),
                        saveAttempted := true, translateCalled := tr.called,
                        badTranslate := tr.called && f.tracker.blocked }
                    else
                      { tracker := f.tracker, seen := seen_set,
                        stats := { tr.stats with
                          errors := tr.stats.errors ++ ["save_failed"] },
                        result := none,
                        fetchIssued := f.issued, badIssued := f.badIssued,
                        fileAppend := none,
                        saveAttempted := true, translateCalled := tr.called,
                        badTranslate := tr.called && f.tracker.blocked }
      | _, _, _ => ProcOut.skip t seen_set stats

/-! ## Harvest loop (`run_scraper`, core variant) -/

/-- Environment of one archive-index visit: the CDX query events and the
per-record environments. -/
structure IndexEnv where
  cdxEnv : List CdxEvent
  recEnvs : List RecordEnv

/-- Head of an index-environment stream. -/
def nextIndexEnv : List IndexEnv → IndexEnv × List IndexEnv
  | [] => ({ cdxEnv := [], recEnvs := [] }, [])
  | e :: rest => (e, rest)

/-- Observable state of one run: the tracker and statistics, the not yet
consumed environment stream, and logs of every side effect the loop
performs (seen-file loads and saves, progress saves, output-log appends)
plus the request accounting. -/
structure RunState where
  tracker : RequestTracker
  stats : ScraperStats
  stream : List IndexEnv
  seenLoads : List String
  seenSaves : List (String × List String)
  progressSaves : List (String × String × String × Nat)
  saves : List (String × String)
  issued : Nat
  badIssued : Nat
  badTranslate : Nat

/-- Record loop over `records[:records_to_process]` (lines 630-633 of
`ukraine_war_scraper_improved.py`). -/
def recordLoop (country : String) (target : Nat) (translatorPresent : Bool) :
    List CdxRec → List RecordEnv → RunState → List String → RunState × List String
  | [], _, st, seen => (st, seen)
  | r :: rs, envs, st, seen =>
    if target ≤ st.stats.articles_saved || st.tracker.blocked then (st, seen)
    else
      let (e, erest) := nextRecordEnv envs
      let p := process_record st.tracker r country seen st.stats translatorPresent e
      let st' : RunState := { st with
        tracker := p.tracker, stats := p.stats,
        issued := st.issued + p.fetchIssued,
        badIssued := st.badIssued + p.badIssued,
        badTranslate := st.badTranslate + (if p.badTranslate then 1 else 0),
        saves := st.saves ++ (match p.fileAppend with
          | some line => [(country, line)]
          | none => []) }
      recordLoop country target translatorPresent rs erest st' p.seen

/-- Index loop (lines 602-636): one CDX query per index, the dynamic
record limit `min(len(records), 50, max(5, remaining * 10))`, the record
loop, then the seen-set and progress checkpoints. -/
def indexLoop (country domain : String) (target : Nat) (translatorPresent : Bool) :
    List String → RunState → List String → RunState × List String
  | [], st, seen => (st, seen)
  | idx :: rest, st, seen =>
    if target ≤ st.stats.articles_saved || st.tracker.blocked then (st, seen)
    else
      let st := { st with stats :=
        { st.stats with cdx_queries := st.stats.cdx_queries + 1 } }
      let (ienv, stream') := nextIndexEnv st.stream
      let st := { st with stream := stream' }
      let q := query_cdx st.tracker ienv.cdxEnv
      let st := { st with
        tracker := q.tracker,
        issued := st.issued + q.issued,
        badIssued := st.badIssued + q.badIssued }
      if q.records.isEmpty then indexLoop country domain target translatorPresent rest st seen
      else
        let st := { st with stats := { st.stats with
          records_fetched := st.stats.records_fetched + q.records.length } }
        let remaining := target - st.stats.articles_saved
        let records_to_process := min (min q.records.length 50) (max 5 (remaining * 10))
        let (st', seen') := recordLoop country target translatorPresent
          (q.records.take records_to_process) ienv.recEnvs st seen
        let st' := { st' with
          seenSaves := st'.seenSaves ++ [(country, seen')],
          progressSaves := st'.progressSaves
            ++ [(country, domain, idx, st'.stats.articles_saved)] }
        indexLoop country domain target translatorPresent rest st' seen'

/-- Domain loop (lines 597-636). -/
def domainLoop (country : String) (indices : List String) (target : Nat)
    (translatorPresent : Bool) :
    List String → RunState → List String → RunState × List String
  | [], st, seen => (st, seen)
  | d :: rest, st, seen =>
    if target ≤ st.stats.articles_saved || st.tracker.blocked then (st, seen)
    else
      let (st', seen') := indexLoop country d target translatorPresent indices st seen
      domainLoop country indices target translatorPresent rest st' seen'

/-- Country loop (lines 585-636) with the resume logic: `started` is
false until the cursor's `last_country` is reached; countries before it
are skipped by `continue` before any seen-file load, CDX lookup, fetch
or save happens for them. -/
def countryLoop (indices : List String) (target : Nat) (translatorPresent : Bool)
    (seenInit : String → List String) :
    Bool → Option String → List (String × List String) → RunState → RunState
  | _, _, [], st => st
  | started, start, (country, domains) :: rest, st =>
    if target ≤ st.stats.articles_saved || st.tracker.blocked then st
    else if started || start == some country then
      let st := { st with seenLoads := st.seenLoads ++ [country] }
      let seen := seenInit country
      let (st', _) := domainLoop country indices target translatorPresent domains st seen
      countryLoop indices target translatorPresent seenInit true start rest st'
    else countryLoop indices target translatorPresent seenInit started start rest st

/-- Run-level environment: the stream of index environments, the
persisted seen sets per country and whether a translator is
available. -/
structure RunEnv where
  stream : List IndexEnv
  seenInit : String → List String
  translatorPresent : Bool

/-- Embedding of `run_scraper(domains_map, ...)`: a fresh tracker and
statistics, then the country loop starting from the persisted cursor's
`last_country` (`startCountry`, the value `progress.get("last_country")`
read before the loop). -/
def run_scraper (domains_map : List (String × List String)) (indices : List String)
    (target_limit : Nat) (max_requests : Nat) (startCountry : Option String)
    (env : RunEnv) : RunState :=
  let st : RunState :=
    { tracker := RequestTracker.init max_requests, stats := ScraperStats.init,
      stream := env.stream, seenLoads := [], seenSaves := [], progressSaves := [],
      saves := [], issued := 0, badIssued := 0, badTranslate := 0 }
  countryLoop indices target_limit env.translatorPresent env.seenInit
    startCountry.isNone startCountry domains_map st

/-! ## Arquivo.pt snapshot selection (`scripts/arquivo_scraper.py`) -/

/-- One Arquivo.pt `response_items` entry: its capture timestamp
(already through Python `int(...)`) and its `linkToNoFrame` URL. -/
structure ArquivoItem where
  tstamp : Int
  linkToNoFrame : String
deriving DecidableEq

/-- Model of Python `min(items, key=f)` on a nonempty list `a :: l`:
a left fold that replaces the best element only on strict improvement,
hence keeps the earliest element among those with minimal key. -/
def pyMinBy {α : Type} (f : α → Nat) (a : α) (l : List α) : α :=
  l.foldl (fun best x => if f x < f best then x else best) a

/-- Embedding of the snapshot-selection logic of `get_arquivo_pt_url`
(lines 51-59 of `scripts/arquivo_scraper.py`), applied to the parsed
`response_items` of a 200 response: with a timestamp, the item whose
`tstamp` is closest to the target (Python `min` with the absolute
difference as key); without one, the first item; `None` when the item
list is empty. -/
def get_arquivo_pt_url (items : List ArquivoItem) (timestamp : Option Int) : Option String :=
  match items with
  | [] => none
  | i :: rest =>
    match timestamp with
    | some target_ts =>
      some (pyMinBy (fun x => (x.tstamp - target_ts).natAbs) i rest).linkToNoFrame
    | none => some i.linkToNoFrame

/-! ## Concrete fixtures used by the witness theorems -/

/-- Sample extracted text: 107 characters, repeatedly matching the
high-weight keyword "mariupol". -/
def sampleText : String :=
  "mariupol mariupol mariupol mariupol mariupol mariupol mariupol mariupol "
    ++ "mariupol mariupol mariupol mariupol"

/-- Sample extractor output. -/
def sampleArticle : Article := { title := "bucha", text := sampleText }

/-- Sample per-record environment: one 200 response with valid gzip, an
extractor returning `sampleArticle`, no translator outcome, and a save
that succeeds or fails as requested. -/
def sampleEnv (ok : Bool) : RecordEnv :=
  { warcEnv := [WarcEvent.resp 200 (some "<html>x</html>") ""],
    extract := fun _ => some sampleArticle,
    translateResult := none,
    saveOk := ok,
    nowIso := "2024-01-01T00:00:00Z" }

/-- Sample CDX record for a given URL. -/
def sampleRec (u : String) : CdxRec :=
  { url := some u, filename := some "x.warc.gz", offset := some 1000,
    length := some 500, timestamp := some "20220301000000" }

/-! # Theorems -/

/-! ## String lemmas -/

/-- Appending to strings appends the underlying character lists. -/
theorem string_toList_append (a b : String) : (a ++ b).toList = a.toList ++ b.toList := by
  cases a; cases b; rfl

/-- String concatenation is associative. -/
theorem string_append_assoc (a b c : String) : (a ++ b) ++ c = a ++ (b ++ c) := by
  cases a; cases b; cases c
  show String.mk _ = String.mk _
  simp [String.append, List.append_assoc]

/-- List prefixes survive extension of the ambient list on the right. -/
theorem isPrefixOf_extend (n : List Char) :
    ∀ (h z : List Char), n.isPrefixOf h = true → n.isPrefixOf (h ++ z) = true := by
  induction n with
  | nil => intro h z _; simp [List.isPrefixOf]
  | cons a t ih =>
    intro h z hp
    cases h with
    | nil => simp [List.isPrefixOf] at hp
    | cons b hs =>
      simp only [List.cons_append, List.isPrefixOf, Bool.and_eq_true] at hp ⊢
      exact ⟨hp.1, ih hs z hp.2⟩

/-- Substring occurrences survive extension of the haystack on the
right. -/
theorem hasSub_extend (needle : List Char) :
    ∀ (hay z : List Char), hasSub hay needle = true → hasSub (hay ++ z) needle = true := by
  intro hay
  induction hay with
  | nil =>
    intro z h
    unfold hasSub at h
    split at h
    · next hp =>
      have hp2 := isPrefixOf_extend needle [] z hp
      simp only [List.nil_append] at hp2 ⊢
      unfold hasSub
      simp [hp2]
    · simp at h
  | cons c t ih =>
    intro z h
    unfold hasSub at h
    split at h
    · next hp =>
      have hp2 := isPrefixOf_extend needle (c :: t) z hp
      unfold hasSub
      simp only [List.cons_append] at hp2 ⊢
      simp [hp2]
    · next hp =>
      unfold hasSub
      simp only [List.cons_append]
      split
      · rfl
      · exact ih z h

/-- Python containment survives appending text on the right. -/
theorem pyIn_extend (kw c s : String) (h : pyIn kw c = true) : pyIn kw (c ++ s) = true := by
  unfold pyIn at h ⊢
  rw [string_toList_append]
  exact hasSub_extend _ _ _ h

/-- The lower-casing model distributes over concatenation. -/
theorem pyLower_append (a b : String) : pyLower (a ++ b) = pyLower a ++ pyLower b := by
  unfold pyLower
  rw [string_toList_append, List.map_append]
  rfl

/-- Appending a suffix to the text appends its lowering to the combined
scoring string. -/
theorem combinedLower_extend (text title s : String) :
    combinedLower (text ++ s) title = combinedLower text title ++ pyLower s := by
  unfold combinedLower
  rw [← pyLower_append]
  congr 1
  simp only [string_append_assoc]

/-- Filter length is monotone in the predicate. -/
theorem filter_length_mono (l : List String) (p q : String → Bool)
    (h : ∀ x ∈ l, p x = true → q x = true) :
    (l.filter p).length ≤ (l.filter q).length := by
  induction l with
  | nil => simp
  | cons a t ih =>
    have ht : ∀ x ∈ t, p x = true → q x = true := fun x hx => h x (List.mem_cons_of_mem a hx)
    by_cases hp : p a
    · rw [List.filter_cons_of_pos hp, List.filter_cons_of_pos (h a (List.mem_cons_self a t) hp)]
      simpa using ih ht
    · rw [List.filter_cons_of_neg (by simpa using hp)]
      by_cases hq : q a
      · rw [List.filter_cons_of_pos hq]
        exact le_trans (ih ht) (by simp)
      · rw [List.filter_cons_of_neg (by simpa using hq)]
        exact ih ht

/-! ## Relevance scorer lemmas -/

/-- Generic closed form of the `+w`-and-record keyword loop. -/
theorem foldl_weight_matched (l : List String) (p : String → Bool) (w : Int) :
    ∀ (s : Int) (m : List String),
      l.foldl (fun acc kw => if p kw then (acc.1 + w, acc.2 ++ [kw]) else acc) (s, m)
        = (s + w * ((l.filter p).length : Int), m ++ l.filter p) := by
  induction l with
  | nil => intro s m; simp
  | cons a t ih =>
    intro s m
    by_cases h : p a
    · simp only [List.foldl_cons, h, if_pos, List.filter_cons_of_pos]
      rw [ih]
      simp only [Prod.mk.injEq, List.length_cons, List.append_assoc, List.singleton_append]
      refine ⟨by push_cast; ring, trivial⟩
    · simp only [List.foldl_cons, h, if_neg, List.filter_cons_of_neg, Bool.false_eq_true,
        not_false_iff]
      rw [ih]

/-- Generic closed form of the `-5` exclusion loop. -/
theorem foldl_sub_count (l : List String) (p : String → Bool) :
    ∀ (s : Int),
      l.foldl (fun sc kw => if p kw then sc - 5 else sc) s
        = s - 5 * ((l.filter p).length : Int) := by
  induction l with
  | nil => intro s; simp
  | cons a t ih =>
    intro s
    by_cases h : p a
    · simp only [List.foldl_cons, h, if_pos, List.filter_cons_of_pos]
      rw [ih]
      simp only [List.length_cons]
      push_cast; ring
    · simp only [List.foldl_cons, h, if_neg, List.filter_cons_of_neg, Bool.false_eq_true,
        not_false_iff]
      rw [ih]

/-- Closed form of the relevance scorer: the score is
`3·high + 2·medium − 5·excluded` and the matched list is exactly the
matched high keywords followed by the matched medium keywords. -/
theorem score_closed_form (text title : String) :
    calculate_relevance_score text title
      = (3 * (matchCount Config.HIGH_RELEVANCE_KEYWORDS (combinedLower text title) : Int)
          + 2 * (matchCount Config.MEDIUM_RELEVANCE_KEYWORDS (combinedLower text title) : Int)
          - 5 * (matchCount Config.EXCLUDE_KEYWORDS (combinedLower text title) : Int),
         Config.HIGH_RELEVANCE_KEYWORDS.filter (fun kw => pyIn kw (combinedLower text title))
           ++ Config.MEDIUM_RELEVANCE_KEYWORDS.filter
                (fun kw => pyIn kw (combinedLower text title))) := by
  simp only [calculate_relevance_score, matchCount]
  rw [foldl_weight_matched, foldl_weight_matched, foldl_sub_count]
  simp only [List.nil_append, Prod.mk.injEq]
  exact ⟨by ring, trivial⟩

/-- Appending a suffix to the text cannot decrease the score unless it
creates a new exclusion-keyword match. -/
theorem score_mono_of_excl_stable (title text s : String)
    (hexcl : ∀ ekw ∈ Config.EXCLUDE_KEYWORDS,
        pyIn ekw (combinedLower (text ++ s) title) = pyIn ekw (combinedLower text title)) :
    (calculate_relevance_score text title).1 ≤ (calculate_relevance_score (text ++ s) title).1 := by
  have h1 := congrArg Prod.fst (score_closed_form text title)
  have h2 := congrArg Prod.fst (score_closed_form (text ++ s) title)
  simp only at h1 h2
  rw [h1, h2]
  have hcc := combinedLower_extend text title s
  have hx : matchCount Config.EXCLUDE_KEYWORDS (combinedLower (text ++ s) title)
      = matchCount Config.EXCLUDE_KEYWORDS (combinedLower text title) := by
    unfold matchCount
    rw [List.filter_congr hexcl]
  have hh : matchCount Config.HIGH_RELEVANCE_KEYWORDS (combinedLower text title)
      ≤ matchCount Config.HIGH_RELEVANCE_KEYWORDS (combinedLower (text ++ s) title) := by
    apply filter_length_mono
    intro x hx hpx
    rw [hcc]
    exact pyIn_extend x _ _ hpx
  have hm : matchCount Config.MEDIUM_RELEVANCE_KEYWORDS (combinedLower text title)
      ≤ matchCount Config.MEDIUM_RELEVANCE_KEYWORDS (combinedLower (text ++ s) title) := by
    apply filter_length_mono
    intro x hx hpx
    rw [hcc]
    exact pyIn_extend x _ _ hpx
  rw [hx]
  omega

/-- Appending a suffix to the text cannot increase the score unless it
creates a new inclusion-keyword match. -/
theorem score_antimono_of_incl_stable (title text s : String)
    (hhigh : ∀ kw ∈ Config.HIGH_RELEVANCE_KEYWORDS,
        pyIn kw (combinedLower (text ++ s) title) = pyIn kw (combinedLower text title))
    (hmed : ∀ kw ∈ Config.MEDIUM_RELEVANCE_KEYWORDS,
        pyIn kw (combinedLower (text ++ s) title) = pyIn kw (combinedLower text title)) :
    (calculate_relevance_score (text ++ s) title).1 ≤ (calculate_relevance_score text title).1 := by
  have h1 := congrArg Prod.fst (score_closed_form text title)
  have h2 := congrArg Prod.fst (score_closed_form (text ++ s) title)
  simp only at h1 h2
  rw [h1, h2]
  have hcc := combinedLower_extend text title s
  have hh : matchCount Config.HIGH_RELEVANCE_KEYWORDS (combinedLower (text ++ s) title)
      = matchCount Config.HIGH_RELEVANCE_KEYWORDS (combinedLower text title) := by
    unfold matchCount
    rw [List.filter_congr hhigh]
  have hm : matchCount Config.MEDIUM_RELEVANCE_KEYWORDS (combinedLower (text ++ s) title)
      = matchCount Config.MEDIUM_RELEVANCE_KEYWORDS (combinedLower text title) := by
    unfold matchCount
    rw [List.filter_congr hmed]
  have hx : matchCount Config.EXCLUDE_KEYWORDS (combinedLower text title)
      ≤ matchCount Config.EXCLUDE_KEYWORDS (combinedLower (text ++ s) title) := by
    apply filter_length_mono
    intro x hx hpx
    rw [hcc]
    exact pyIn_extend x _ _ hpx
  rw [hh, hm]
  omega

/-- Counterexample to claim C7 as stated.  Appending the high-weight
keyword "russian invasion" to a text ending in "socce" creates the
exclusion match "soccer" at the junction and drops the score from 2 to
0; appending a second occurrence of the exclusion keyword "sports" after
a text ending in "sanction" creates the inclusion match "sanctions" at
the junction and raises the score from -5 to -3. -/
theorem claim_C7_counterexample :
    ("russian invasion" ∈ Config.HIGH_RELEVANCE_KEYWORDS
      ∧ (calculate_relevance_score ("russia socce" ++ "russian invasion") "").1
          < (calculate_relevance_score "russia socce" "").1)
    ∧ ("sports" ∈ Config.EXCLUDE_KEYWORDS
      ∧ (calculate_relevance_score "sports sanction" "").1
          < (calculate_relevance_score ("sports sanction" ++ "sports") "").1) := by
  decide

/-- Claim C7 (amended): appending an occurrence of a high-weight keyword
to the text never decreases the relevance score PROVIDED the appended
occurrence does not create a new exclusion-keyword match in the combined
string, and appending an occurrence of an exclusion keyword never
increases the score PROVIDED it does not create a new inclusion-keyword
match; without these provisos the substring matcher admits junction
artifacts that reverse both directions. -/
theorem claim_C7 (title text : String) :
    (∀ hkw ∈ Config.HIGH_RELEVANCE_KEYWORDS,
        (∀ ekw ∈ Config.EXCLUDE_KEYWORDS,
            pyIn ekw (combinedLower (text ++ hkw) title) = pyIn ekw (combinedLower text title)) →
        (calculate_relevance_score text title).1
          ≤ (calculate_relevance_score (text ++ hkw) title).1)
    ∧ (∀ ekw ∈ Config.EXCLUDE_KEYWORDS,
        (∀ kw ∈ Config.HIGH_RELEVANCE_KEYWORDS,
            pyIn kw (combinedLower (text ++ ekw) title) = pyIn kw (combinedLower text title)) →
        (∀ kw ∈ Config.MEDIUM_RELEVANCE_KEYWORDS,
            pyIn kw (combinedLower (text ++ ekw) title) = pyIn kw (combinedLower text title)) →
        (calculate_relevance_score (text ++ ekw) title).1
          ≤ (calculate_relevance_score text title).1) := by
  constructor
  · intro hkw _ hstable
    exact score_mono_of_excl_stable title text hkw hstable
  · intro ekw _ hstableH hstableM
    exact score_antimono_of_incl_stable title text ekw hstableH hstableM

/-- Witness for claim C7 at a concrete input: appending "bucha" to a
relevant text raises the score, appending "recipe" lowers it, and both
side conditions hold there. -/
theorem claim_C7_witness :
    (calculate_relevance_score "shelling in mariupol" "").1
      ≤ (calculate_relevance_score ("shelling in mariupol" ++ "bucha") "").1
    ∧ (calculate_relevance_score ("shelling in mariupol" ++ "recipe") "").1
      ≤ (calculate_relevance_score "shelling in mariupol" "").1 :=
  ⟨(claim_C7 "" "shelling in mariupol").1 "bucha" (by decide) (by decide),
   (claim_C7 "" "shelling in mariupol").2 "recipe" (by decide) (by decide) (by decide)⟩

/-! ## Arquivo.pt snapshot selection -/

/-- Characterization of the Python `min(items, key=f)` fold on `a :: l`:
it returns an element of the list whose key is minimal and which is
strictly better than every element before it (the earliest
minimizer). -/
theorem pyMinBy_spec {α : Type} (f : α → Nat) :
    ∀ (l : List α) (a : α),
      ∃ l1 l2, a :: l = l1 ++ pyMinBy f a l :: l2
        ∧ (∀ x ∈ a :: l, f (pyMinBy f a l) ≤ f x)
        ∧ (∀ x ∈ l1, f (pyMinBy f a l) < f x) := by
  intro l
  induction l with
  | nil =>
    intro a
    exact ⟨[], [], rfl, by simp [pyMinBy], by simp⟩
  | cons b t ih =>
    intro a
    have hstep : pyMinBy f a (b :: t) = pyMinBy f (if f b < f a then b else a) t := rfl
    by_cases hba : f b < f a
    · obtain ⟨l1, l2, hdec, hmin, hstrict⟩ := ih b
      rw [hstep, if_pos hba]
      refine ⟨a :: l1, l2, ?_, ?_, ?_⟩
      · simpa using hdec
      · intro x hx
        rcases List.mem_cons.mp hx with h | h
        · subst h
          exact le_of_lt (lt_of_le_of_lt (hmin b (List.mem_cons_self b t)) hba)
        · exact hmin x h
      · intro x hx
        rcases List.mem_cons.mp hx with h | h
        · subst h
          exact lt_of_le_of_lt (hmin b (List.mem_cons_self b t)) hba
        · exact hstrict x h
    · obtain ⟨l1, l2, hdec, hmin, hstrict⟩ := ih a
      have hab : f a ≤ f b := Nat.le_of_not_lt hba
      rw [hstep, if_neg hba]
      cases l1 with
      | nil =>
        simp only [List.nil_append] at hdec
        have hma : pyMinBy f a t = a := (List.cons.injEq _ _ _ _ ▸ hdec).1.symm
        refine ⟨[], b :: t, ?_, ?_, ?_⟩
        · simp [hma]
        · intro x hx
          rcases List.mem_cons.mp hx with h | h
          · subst h; rw [hma]
          · rcases List.mem_cons.mp h with h2 | h2
            · subst h2; rw [hma]; exact hab
            · exact hmin x (List.mem_cons_of_mem a h2)
        · simp
      | cons p l1' =>
        have hpa : p = a := by
          have := congrArg (fun l => l.head?) hdec
          simpa using this.symm
        have ht : t = l1' ++ pyMinBy f a t :: l2 := by
          have := congrArg (fun l => l.tail) hdec
          simpa using this
        have hlta : f (pyMinBy f a t) < f a := by
          apply hstrict
          rw [hpa]
          exact List.mem_cons_self a l1'
        refine ⟨a :: b :: l1', l2, ?_, ?_, ?_⟩
        · simp [← ht]
        · intro x hx
          rcases List.mem_cons.mp hx with h | h
          · subst h; exact hmin _ (List.mem_cons_self _ t)
          · rcases List.mem_cons.mp h with h2 | h2
            · subst h2; exact le_of_lt (lt_of_lt_of_le hlta hab)
            · exact hmin x (List.mem_cons_of_mem _ h2)
        · intro x hx
          rcases List.mem_cons.mp hx with h | h
          · subst h; exact hlta
          · rcases List.mem_cons.mp h with h2 | h2
            · subst h2; exact lt_of_lt_of_le hlta hab
            · apply hstrict
              rw [hpa]
              exact List.mem_cons_of_mem a h2

/-- Claim C8: on a nonempty snapshot list, the Arquivo.pt locator with a
target timestamp returns the snapshot whose capture time is numerically
closest to the target, breaking ties in favor of the earliest position
(every strictly earlier item has a strictly larger distance), and
without a timestamp it returns the first item of the list.  (The
Wayback variant delegates closest-selection to the
`archive.org/wayback/available` API, which returns a single `closest`
snapshot rather than a list.) -/
theorem claim_C8 (items : List ArquivoItem) (ts : Int) (h : items ≠ []) :
    (∃ l1 l2 best,
        items = l1 ++ best :: l2
        ∧ get_arquivo_pt_url items (some ts) = some best.linkToNoFrame
        ∧ (∀ x ∈ items, (best.tstamp - ts).natAbs ≤ (x.tstamp - ts).natAbs)
        ∧ (∀ x ∈ l1, (best.tstamp - ts).natAbs < (x.tstamp - ts).natAbs))
    ∧ get_arquivo_pt_url items none = items.head?.map ArquivoItem.linkToNoFrame := by
  cases items with
  | nil => exact absurd rfl h
  | cons i rest =>
    constructor
    · obtain ⟨l1, l2, hdec, hmin, hstrict⟩ :=
        pyMinBy_spec (fun x => (x.tstamp - ts).natAbs) rest i
      exact ⟨l1, l2, pyMinBy (fun x => (x.tstamp - ts).natAbs) i rest, hdec, rfl, hmin, hstrict⟩
    · rfl

/-- Witness for claim C8: three concrete snapshots with a distance tie
between the first two; the selection picks the earliest of the tied
pair. -/
theorem claim_C8_witness :
    (∃ l1 l2 best,
        [ArquivoItem.mk 100 "u1", ArquivoItem.mk 90 "u2", ArquivoItem.mk 110 "u3"]
          = l1 ++ best :: l2
        ∧ get_arquivo_pt_url
            [ArquivoItem.mk 100 "u1", ArquivoItem.mk 90 "u2", ArquivoItem.mk 110 "u3"]
            (some 95) = some best.linkToNoFrame
        ∧ (∀ x ∈ [ArquivoItem.mk 100 "u1", ArquivoItem.mk 90 "u2", ArquivoItem.mk 110 "u3"],
            (best.tstamp - 95).natAbs ≤ (x.tstamp - 95).natAbs)
        ∧ (∀ x ∈ l1, (best.tstamp - 95).natAbs < (x.tstamp - 95).natAbs))
    ∧ get_arquivo_pt_url
        [ArquivoItem.mk 100 "u1", ArquivoItem.mk 90 "u2", ArquivoItem.mk 110 "u3"] none
        = ([ArquivoItem.mk 100 "u1", ArquivoItem.mk 90 "u2",
            ArquivoItem.mk 110 "u3"].head?).map ArquivoItem.linkToNoFrame :=
  claim_C8 [ArquivoItem.mk 100 "u1", ArquivoItem.mk 90 "u2", ArquivoItem.mk 110 "u3"] 95
    (List.cons_ne_nil _ _)

/-! ## Output-log append (claim C2) -/

/-- Decimal digits never render a newline. -/
theorem digitChar_ne_nl (n : Nat) : digitChar n ≠ '\n' := by
  unfold digitChar
  split_ifs <;> decide

/-- Hexadecimal digits never render a newline. -/
theorem hexDigit_ne_nl (n : Nat) : hexDigit n ≠ '\n' := by
  unfold hexDigit
  split_ifs with h
  · exact digitChar_ne_nl n
  all_goals decide

/-- Rendered natural numbers never contain a newline. -/
theorem nl_not_mem_natToCharsAux (fuel : Nat) : ∀ n, '\n' ∉ natToCharsAux fuel n := by
  induction fuel with
  | zero => intro n; simp [natToCharsAux]
  | succ f ih =>
    intro n
    unfold natToCharsAux
    split
    · simp only [List.mem_singleton]
      exact fun h => digitChar_ne_nl n h.symm
    · intro h
      rcases List.mem_append.mp h with h | h
      · exact ih _ h
      · simp only [List.mem_singleton] at h
        exact digitChar_ne_nl _ h.symm

/-- Rendered natural numbers never contain a newline. -/
theorem nl_not_mem_natToStr (n : Nat) : '\n' ∉ (natToStr n).toList :=
  nl_not_mem_natToCharsAux _ _

/-- Concatenation preserves newline-freeness. -/
theorem noNL_append {a b : String} (ha : '\n' ∉ a.toList) (hb : '\n' ∉ b.toList) :
    '\n' ∉ (a ++ b).toList := by
  rw [string_toList_append]
  intro h
  rcases List.mem_append.mp h with h | h
  exacts [ha h, hb h]

/-- Rendered integers never contain a newline. -/
theorem nl_not_mem_intToStr (i : Int) : '\n' ∉ (intToStr i).toList := by
  unfold intToStr
  split
  · exact noNL_append (by decide) (nl_not_mem_natToStr _)
  · exact nl_not_mem_natToStr _

/-- The JSON character escaper never emits a raw newline (a newline in
the data is escaped to a backslash and an `n`). -/
theorem nl_not_mem_jescape (c : Char) : '\n' ∉ jescape c := by
  unfold jescape
  split_ifs with h1 h2 h3 h4 h5 h6 h7 h8
  · decide
  · decide
  · decide
  · decide
  · decide
  · decide
  · decide
  · intro h
    simp only [List.mem_cons, List.not_mem_nil, or_false] at h
    rcases h with h | h | h | h | h | h
    · exact (by decide : ('\n' : Char) ≠ '\\') h
    · exact (by decide : ('\n' : Char) ≠ 'u') h
    · exact (by decide : ('\n' : Char) ≠ '0') h
    · exact (by decide : ('\n' : Char) ≠ '0') h
    · exact hexDigit_ne_nl _ h.symm
    · exact hexDigit_ne_nl _ h.symm
  · simp only [List.mem_singleton]
    exact fun h => h3 h.symm

/-- JSON string literals never contain a raw newline. -/
theorem nl_not_mem_jstr (s : String) : '\n' ∉ (jstr s).toList := by
  unfold jstr
  apply noNL_append
  apply noNL_append
  · decide
  · show '\n' ∉ (s.toList.map jescape).flatten
    intro h
    rcases List.mem_flatten.mp h with ⟨l, hl, hmem⟩
    rcases List.mem_map.mp hl with ⟨c, _, rfl⟩
    exact nl_not_mem_jescape c hmem
  · decide

/-- Rendered optional strings never contain a raw newline. -/
theorem nl_not_mem_jopt (o : Option String) : '\n' ∉ (jopt o).toList := by
  cases o
  · decide
  · exact nl_not_mem_jstr _

/-- Joining newline-free pieces with a newline-free separator is
newline-free. -/
theorem nl_not_mem_joinSep (sep : String) (hs : '\n' ∉ sep.toList) :
    ∀ l : List String, (∀ x ∈ l, '\n' ∉ x.toList) → '\n' ∉ (joinSep sep l).toList := by
  intro l
  induction l with
  | nil =>
    intro _
    show '\n' ∉ ("" : String).toList
    decide
  | cons x xs ih =>
    intro h
    cases xs with
    | nil => exact h x (List.mem_singleton_self x)
    | cons y ys =>
      show '\n' ∉ (x ++ sep ++ joinSep sep (y :: ys)).toList
      apply noNL_append
      · exact noNL_append (h x (List.mem_cons_self x _)) hs
      · exact ih (fun z hz => h z (List.mem_cons_of_mem x hz))

/-- Rendered string lists never contain a raw newline. -/
theorem nl_not_mem_jlist (l : List String) : '\n' ∉ (jlist l).toList := by
  unfold jlist
  apply noNL_append
  apply noNL_append
  · decide
  · refine nl_not_mem_joinSep ", " (by decide) _ ?_
    intro x hx
    rcases List.mem_map.mp hx with ⟨c, _, rfl⟩
    exact nl_not_mem_jstr c
  · decide

/-- A serialized result record contains no raw newline: it is a single
JSON line. -/
theorem nl_not_mem_dumpRecord (r : ResultRecord) : '\n' ∉ (dumpRecord r).toList := by
  unfold dumpRecord
  repeat' apply noNL_append
  all_goals first
    | exact nl_not_mem_jstr _
    | exact nl_not_mem_jopt _
    | exact nl_not_mem_jlist _
    | exact nl_not_mem_intToStr _
    | (intro h
       rcases List.mem_flatten.mp h with ⟨l, hl, hmem⟩
       rcases List.mem_map.mp hl with ⟨c, _, rfl⟩
       exact nl_not_mem_jescape c hmem)
    | (refine nl_not_mem_joinSep ", " (by decide) _ ?_
       intro x hx
       rcases List.mem_map.mp hx with ⟨c, _, rfl⟩
       exact nl_not_mem_jstr c)
    | decide

/-- Claim C2 (amended): in the CORE variant
(`ukraine_war_scraper_improved.py`), saving one accepted article appends
exactly one newline-terminated serialized JSON object to the
per-category per-UTC-day `.jsonl` log: the previously written content is
preserved byte for byte as a prefix, the appended suffix contains
exactly one newline (at its end), and the suffix does not depend on the
file's prior content (no read of the existing file).  The SCRIPTS
variants violate the claim: they read the whole file back and rewrite it
as an indented JSON array (see the counterexample). -/
theorem claim_C2 (fileContent otherContent : String) (r : ResultRecord) :
    (save_article_line fileContent r).toList.take fileContent.toList.length
        = fileContent.toList
    ∧ (save_article_line fileContent r).toList.drop fileContent.toList.length
        = (dumpRecord r).toList ++ ['\n']
    ∧ ((save_article_line fileContent r).toList.drop fileContent.toList.length).count '\n' = 1
    ∧ ((save_article_line fileContent r).toList.drop fileContent.toList.length).getLast?
        = some '\n'
    ∧ (save_article_line fileContent r).toList.drop fileContent.toList.length
        = (save_article_line otherContent r).toList.drop otherContent.toList.length := by
  have key : ∀ fc : String, (save_article_line fc r).toList
      = fc.toList ++ ((dumpRecord r).toList ++ ['\n']) := by
    intro fc
    unfold save_article_line
    rw [string_toList_append, string_toList_append, List.append_assoc]
    rfl
  refine ⟨?_, ?_, ?_, ?_, ?_⟩
  · rw [key]; exact List.take_left _ _
  · rw [key]; exact List.drop_left _ _
  · rw [key, List.drop_left, List.count_append]
    rw [List.count_eq_zero.mpr (nl_not_mem_dumpRecord r)]
    rfl
  · rw [key, List.drop_left]
    exact List.getLast?_concat _
  · rw [key fileContent, key otherContent, List.drop_left, List.drop_left]

/-- Counterexample to claim C2 as stated: the wayback variant's
`save_article` re-serializes the whole article array, so after saving a
second article the file's previous content (the one-article array) is
no longer a prefix of the new content — previously written bytes are
rewritten, not preserved. -/
theorem claim_C2_counterexample :
    ((dumpArrIndent4 [[("url", "a")]]).toList.isPrefixOf
        (wayback_save_article [[("url", "a")]] [("url", "b")]).toList) = false := by
  decide

/-! ## Request tracker and network guard lemmas -/
/-- A passing `can_make_request` guard means: not blocked and strictly
below the budget. -/
theorem can_make_request_true {t : RequestTracker} (h : t.can_make_request = true) :
    t.blocked = false ∧ t.request_count < t.max_requests := by
  unfold RequestTracker.can_make_request at h
  split_ifs at h with h1 h2
  refine ⟨?_, by omega⟩
  revert h1
  cases t.blocked <;> simp

/-- `record_request` never changes the configured budget. -/
theorem record_request_max (t : RequestTracker) (s : Nat) :
    (t.record_request s).max_requests = t.max_requests := rfl

/-- `record_request` advances the counter by one. -/
theorem record_request_count (t : RequestTracker) (s : Nat) :
    (t.record_request s).request_count = t.request_count + 1 := rfl

/-- `record_request` keeps the tracker unblocked on a status that is
neither 429 nor 403. -/
theorem record_request_blocked_of_ok (t : RequestTracker) (s : Nat)
    (hb : t.blocked = false) (h429 : (s == 429) = false) (h403 : (s == 403) = false) :
    (t.record_request s).blocked = false := by
  unfold RequestTracker.record_request
  simp [hb, h429, h403]

/-- Unfolding step of `query_cdx_loop` on a raised request. -/
theorem query_cdx_loop_step_exc (f : Nat) (t : RequestTracker) (rest : List CdxEvent) :
    query_cdx_loop (f + 1) t (CdxEvent.exc :: rest)
      = { query_cdx_loop f t rest with
          issued := (query_cdx_loop f t rest).issued + 1,
          badIssued := (query_cdx_loop f t rest).badIssued
            + (if t.blocked then 1 else 0) } := rfl

/-- Unfolding step of `query_cdx_loop` on an empty environment (the
remaining requests raise). -/
theorem query_cdx_loop_step_nil (f : Nat) (t : RequestTracker) :
    query_cdx_loop (f + 1) t []
      = { query_cdx_loop f t [] with
          issued := (query_cdx_loop f t []).issued + 1,
          badIssued := (query_cdx_loop f t []).badIssued
            + (if t.blocked then 1 else 0) } := rfl

/-- Unfolding step of `query_cdx_loop` on a response. -/
theorem query_cdx_loop_step_resp (f : Nat) (t : RequestTracker) (status : Nat)
    (records : List CdxRec) (rest : List CdxEvent) :
    query_cdx_loop (f + 1) t (CdxEvent.resp status records :: rest)
      = (if status == 200 then
          if records.isEmpty then
            { query_cdx_loop f (t.record_request status) rest with
              issued := (query_cdx_loop f (t.record_request status) rest).issued + 1,
              badIssued := (query_cdx_loop f (t.record_request status) rest).badIssued
                + (if t.blocked then 1 else 0) }
          else { tracker := t.record_request status, records := records, issued := 1,
                 badIssued := (if t.blocked then 1 else 0) }
        else if status == 429 || status == 403 then
          { tracker := t.record_request status, records := [], issued := 1,
            badIssued := (if t.blocked then 1 else 0) }
        else
          { query_cdx_loop f (t.record_request status) rest with
            issued := (query_cdx_loop f (t.record_request status) rest).issued + 1,
            badIssued := (query_cdx_loop f (t.record_request status) rest).badIssued
              + (if t.blocked then 1 else 0) }) := rfl

/-- Invariants of the `query_cdx` retry loop: the budget field is
untouched, the counter grows by at most the fuel, and no request is
issued while blocked when the loop starts unblocked. -/
theorem query_cdx_loop_facts (fuel : Nat) : ∀ (t : RequestTracker) (env : List CdxEvent),
    (query_cdx_loop fuel t env).tracker.max_requests = t.max_requests
    ∧ (query_cdx_loop fuel t env).tracker.request_count ≤ t.request_count + fuel
    ∧ (t.blocked = false → (query_cdx_loop fuel t env).badIssued = 0) := by
  induction fuel with
  | zero => intro t env; exact ⟨rfl, by simp [query_cdx_loop], fun _ => rfl⟩
  | succ f ih =>
    intro t env
    cases env with
    | nil =>
      obtain ⟨ihm, ihc, ihb⟩ := ih t []
      rw [query_cdx_loop_step_nil]
      try dsimp only
      exact ⟨ihm, by omega, fun hb => by rw [hb]; simp [ihb hb]⟩
    | cons e rest =>
      cases e with
      | exc =>
        obtain ⟨ihm, ihc, ihb⟩ := ih t rest
        rw [query_cdx_loop_step_exc]
        try dsimp only
        exact ⟨ihm, by omega, fun hb => by rw [hb]; simp [ihb hb]⟩
      | resp status records =>
        rw [query_cdx_loop_step_resp]
        by_cases h200 : (status == 200) = true
        · have hs : status = 200 := by simpa using h200
          subst hs
          rw [if_pos h200]
          by_cases hemp : records.isEmpty = true
          · obtain ⟨ihm, ihc, ihb⟩ := ih (t.record_request 200) rest
            rw [if_pos hemp]
            try dsimp only
            rw [record_request_count] at ihc
            refine ⟨by rw [ihm]; rfl, by omega, ?_⟩
            intro hb
            rw [hb, ihb (record_request_blocked_of_ok t 200 hb rfl rfl)]
            simp
          · rw [if_neg (by simp [hemp])]
            refine ⟨rfl, by rw [record_request_count]; omega, ?_⟩
            intro hb
            rw [hb]
            simp
        · rw [if_neg (by simp [h200])]
          by_cases hblk : (status == 429 || status == 403) = true
          · rw [if_pos hblk]
            refine ⟨rfl, by rw [record_request_count]; omega, ?_⟩
            intro hb
            rw [hb]
            simp
          · rw [if_neg (by simp [hblk])]
            try dsimp only
            have h429 : (status == 429) = false := by
              cases h : (status == 429)
              · rfl
              · exact absurd (by simp [h]) hblk
            have h403 : (status == 403) = false := by
              cases h : (status == 403)
              · rfl
              · exact absurd (by simp [h]) hblk
            obtain ⟨ihm, ihc, ihb⟩ := ih (t.record_request status) rest
            rw [record_request_count] at ihc
            refine ⟨by rw [ihm]; rfl, by omega, ?_⟩
            intro hb
            rw [hb, ihb (record_request_blocked_of_ok t status hb h429 h403)]
            simp

/-- Invariants of one `query_cdx` invocation: the budget field is
untouched, the counter never passes `max_requests + 5` (the invocation
is admitted only below the limit and makes at most
`MAX_RETRIES * 2 = 6` requests), no request is ever issued while
blocked, a blocked tracker short-circuits to the empty result, and a
tracker at or over the limit issues nothing. -/
theorem query_cdx_facts (t : RequestTracker) (env : List CdxEvent) :
    (query_cdx t env).tracker.max_requests = t.max_requests
    ∧ (query_cdx t env).tracker.request_count ≤ max t.request_count (t.max_requests + 5)
    ∧ (query_cdx t env).badIssued = 0
    ∧ (t.blocked = true →
        query_cdx t env = { tracker := t, records := [], issued := 0, badIssued := 0 })
    ∧ (t.max_requests ≤ t.request_count → (query_cdx t env).issued = 0) := by
  unfold query_cdx
  by_cases hc : t.can_make_request = true
  · obtain ⟨hb, hlt⟩ := can_make_request_true hc
    obtain ⟨hm, hcount, hbad⟩ := query_cdx_loop_facts (Config.MAX_RETRIES * 2) t env
    rw [if_pos hc]
    refine ⟨hm, ?_, hbad hb, ?_, ?_⟩
    · refine le_trans ?_ (Nat.le_max_right t.request_count (t.max_requests + 5))
      have h6 : Config.MAX_RETRIES * 2 = 6 := rfl
      omega
    · intro habs; rw [habs] at hb; cases hb
    · intro habs; omega
  · rw [if_neg hc]
    exact ⟨rfl, Nat.le_max_left _ _, rfl, fun _ => rfl, fun _ => rfl⟩

/-- Unfolding step of the core fetch loop on a raised request. -/
theorem fetch_loop_step_exc (f : Nat) (t : RequestTracker) (rest : List WarcEvent) :
    fetch_warc_range_loop (f + 1) t (WarcEvent.exc :: rest)
      = { fetch_warc_range_loop f t rest with
          issued := (fetch_warc_range_loop f t rest).issued + 1,
          badIssued := (fetch_warc_range_loop f t rest).badIssued
            + (if t.blocked then 1 else 0) } := rfl

/-- Unfolding step of the core fetch loop on an empty environment. -/
theorem fetch_loop_step_nil (f : Nat) (t : RequestTracker) :
    fetch_warc_range_loop (f + 1) t []
      = { fetch_warc_range_loop f t [] with
          issued := (fetch_warc_range_loop f t []).issued + 1,
          badIssued := (fetch_warc_range_loop f t []).badIssued
            + (if t.blocked then 1 else 0) } := rfl

/-- Unfolding step of the core fetch loop on a response. -/
theorem fetch_loop_step_resp (f : Nat) (t : RequestTracker) (status : Nat)
    (gz : Option String) (raw : String) (rest : List WarcEvent) :
    fetch_warc_range_loop (f + 1) t (WarcEvent.resp status gz raw :: rest)
      = (if status == 200 || status == 206 then
          match gz with
          | some content =>
            { tracker := t.record_request status, result := some content, issued := 1,
              badIssued := (if t.blocked then 1 else 0) }
          | none =>
            { fetch_warc_range_loop f (t.record_request status) rest with
              issued := (fetch_warc_range_loop f (t.record_request status) rest).issued + 1,
              badIssued := (fetch_warc_range_loop f (t.record_request status) rest).badIssued
                + (if t.blocked then 1 else 0) }
        else if status == 429 || status == 403 then
          { tracker := t.record_request status, result := none, issued := 1,
            badIssued := (if t.blocked then 1 else 0) }
        else
          { fetch_warc_range_loop f (t.record_request status) rest with
            issued := (fetch_warc_range_loop f (t.record_request status) rest).issued + 1,
            badIssued := (fetch_warc_range_loop f (t.record_request status) rest).badIssued
              + (if t.blocked then 1 else 0) }) := rfl

/-- Invariants of the CORE `fetch_warc_range` retry loop, together with
the fact that a successful fetch never leaves the tracker blocked (the
only blocking statuses return `None` at once). -/
theorem fetch_warc_range_loop_facts (fuel : Nat) : ∀ (t : RequestTracker) (env : List WarcEvent),
    (fetch_warc_range_loop fuel t env).tracker.max_requests = t.max_requests
    ∧ (fetch_warc_range_loop fuel t env).tracker.request_count ≤ t.request_count + fuel
    ∧ (t.blocked = false → (fetch_warc_range_loop fuel t env).badIssued = 0)
    ∧ (t.blocked = false → ∀ c, (fetch_warc_range_loop fuel t env).result = some c →
        (fetch_warc_range_loop fuel t env).tracker.blocked = false) := by
  induction fuel with
  | zero =>
    intro t env
    refine ⟨rfl, by simp [fetch_warc_range_loop], fun _ => rfl, fun _ c h => ?_⟩
    simp [fetch_warc_range_loop] at h
  | succ f ih =>
    intro t env
    cases env with
    | nil =>
      obtain ⟨ihm, ihc, ihb, ihs⟩ := ih t []
      rw [fetch_loop_step_nil]
      try dsimp only
      exact ⟨ihm, by omega, fun hb => by rw [hb]; simp [ihb hb],
        fun hb c hres => ihs hb c hres⟩
    | cons e rest =>
      cases e with
      | exc =>
        obtain ⟨ihm, ihc, ihb, ihs⟩ := ih t rest
        rw [fetch_loop_step_exc]
        try dsimp only
        exact ⟨ihm, by omega, fun hb => by rw [hb]; simp [ihb hb],
          fun hb c hres => ihs hb c hres⟩
      | resp status gz raw =>
        rw [fetch_loop_step_resp]
        by_cases h2xx : (status == 200 || status == 206) = true
        · have hs : status = 200 ∨ status = 206 := by
            rcases Bool.or_eq_true_iff.mp h2xx with h | h
            · exact Or.inl (by simpa using h)
            · exact Or.inr (by simpa using h)
          have h429 : (status == 429) = false := by
            rcases hs with rfl | rfl <;> rfl
          have h403 : (status == 403) = false := by
            rcases hs with rfl | rfl <;> rfl
          rw [if_pos h2xx]
          cases gz with
          | some content =>
            refine ⟨rfl, by rw [record_request_count]; omega, ?_, ?_⟩
            · intro hb; rw [hb]; rfl
            · intro hb c _
              exact record_request_blocked_of_ok t status hb h429 h403
          | none =>
            obtain ⟨ihm, ihc, ihb, ihs⟩ := ih (t.record_request status) rest
            try dsimp only
            rw [record_request_count] at ihc
            refine ⟨by rw [ihm]; rfl, by omega, ?_, ?_⟩
            · intro hb
              rw [hb, ihb (record_request_blocked_of_ok t status hb h429 h403)]
              simp
            · intro hb c hres
              exact ihs (record_request_blocked_of_ok t status hb h429 h403) c hres
        · rw [if_neg (by simp [h2xx])]
          by_cases hblk : (status == 429 || status == 403) = true
          · rw [if_pos hblk]
            refine ⟨rfl, by rw [record_request_count]; omega, ?_, ?_⟩
            · intro hb; rw [hb]; rfl
            · intro hb c h; cases h
          · rw [if_neg (by simp [hblk])]
            try dsimp only
            have h429 : (status == 429) = false := by
              cases h : (status == 429)
              · rfl
              · exact absurd (by simp [h]) hblk
            have h403 : (status == 403) = false := by
              cases h : (status == 403)
              · rfl
              · exact absurd (by simp [h]) hblk
            obtain ⟨ihm, ihc, ihb, ihs⟩ := ih (t.record_request status) rest
            rw [record_request_count] at ihc
            refine ⟨by rw [ihm]; rfl, by omega, ?_, ?_⟩
            · intro hb
              rw [hb, ihb (record_request_blocked_of_ok t status hb h429 h403)]
              simp
            · intro hb c hres
              exact ihs (record_request_blocked_of_ok t status hb h429 h403) c hres

/-- Invariants of one CORE `fetch_warc_range` invocation. -/
theorem fetch_warc_range_facts (t : RequestTracker) (wp : String) (offset length : Int)
    (env : List WarcEvent) :
    (fetch_warc_range t wp offset length env).tracker.max_requests = t.max_requests
    ∧ (fetch_warc_range t wp offset length env).tracker.request_count
        ≤ max t.request_count (t.max_requests + 5)
    ∧ (fetch_warc_range t wp offset length env).badIssued = 0
    ∧ (t.blocked = true → (fetch_warc_range t wp offset length env).issued = 0
        ∧ (fetch_warc_range t wp offset length env).tracker = t)
    ∧ (t.blocked = false → ∀ c, (fetch_warc_range t wp offset length env).result = some c →
        (fetch_warc_range t wp offset length env).tracker.blocked = false)
    ∧ (t.max_requests ≤ t.request_count →
        (fetch_warc_range t wp offset length env).issued = 0) := by
  unfold fetch_warc_range
  by_cases hc : t.can_make_request = true
  · obtain ⟨hb, hlt⟩ := can_make_request_true hc
    obtain ⟨hm, hcount, hbad, hsucc⟩ := fetch_warc_range_loop_facts Config.MAX_RETRIES t env
    rw [if_pos hc]
    try dsimp only
    refine ⟨hm, ?_, hbad hb, ?_, ?_, ?_⟩
    · refine le_trans ?_ (Nat.le_max_right t.request_count (t.max_requests + 5))
      have h3 : Config.MAX_RETRIES = 3 := rfl
      omega
    · intro habs; rw [habs] at hb; cases hb
    · intro _ c hres
      exact hsucc hb c hres
    · intro habs; omega
  · rw [if_neg hc]
    try dsimp only
    refine ⟨rfl, Nat.le_max_left _ _, rfl, fun _ => ⟨rfl, rfl⟩, ?_, fun _ => rfl⟩
    intro hb c h
    exact Option.noConfusion h

/-- With an environment of raised requests only, the CORE fetch loop
exhausts its retries, returns `None` and issues at most `fuel`
requests. -/
theorem fetch_loop_all_exc (fuel : Nat) : ∀ (t : RequestTracker) (env : List WarcEvent),
    (∀ ev ∈ env, ev = WarcEvent.exc) →
    (fetch_warc_range_loop fuel t env).result = none
    ∧ (fetch_warc_range_loop fuel t env).issued ≤ fuel := by
  induction fuel with
  | zero => intro t env _; exact ⟨rfl, by simp [fetch_warc_range_loop]⟩
  | succ f ih =>
    intro t env hall
    cases env with
    | nil =>
      obtain ⟨ihr, ihi⟩ := ih t [] (by intro ev hev; cases hev)
      rw [fetch_loop_step_nil]
      try dsimp only
      exact ⟨ihr, by omega⟩
    | cons e rest =>
      have he : e = WarcEvent.exc := hall e (List.mem_cons_self e rest)
      subst he
      obtain ⟨ihr, ihi⟩ := ih t rest (fun ev hev => hall ev (List.mem_cons_of_mem _ hev))
      rw [fetch_loop_step_exc]
      try dsimp only
      exact ⟨ihr, by omega⟩

/-- Claim C9 (amended): the byte-range fetchers compute the `Range`
header `bytes=offset-(offset+length-1)`; on an HTTP 200/206 response the
SCRIPTS variant (`scripts/kraine_war_scraper_improved.py`) attempts
gzip decompression and falls back to the raw `errors="ignore"` decode
when decompression fails, while the CORE variant retries on gzip
failure and, after its bounded retries are exhausted, returns the
fetch-failed value `None` rather than raising. -/
theorem claim_C9 (t : RequestTracker) (wp : String) (offset length : Int)
    (env : List WarcEvent) :
    (fetch_warc_range t wp offset length env).header
        = "bytes=" ++ intToStr offset ++ "-" ++ intToStr (offset + length - 1)
    ∧ (∀ status gz raw rest, env = WarcEvent.resp status gz raw :: rest →
        t.can_make_request = true → (status = 200 ∨ status = 206) →
        (kraine_fetch_warc_range t wp offset length env).result = some (gz.getD raw))
    ∧ ((∀ ev ∈ env, ev = WarcEvent.exc) →
        (fetch_warc_range t wp offset length env).result = none
        ∧ (fetch_warc_range t wp offset length env).issued ≤ Config.MAX_RETRIES) := by
  refine ⟨?_, ?_, ?_⟩
  · unfold fetch_warc_range rangeHeader
    by_cases hc : t.can_make_request = true
    · rw [if_pos hc]
    · rw [if_neg hc]
  · intro status gz raw rest henv hc hst
    subst henv
    unfold kraine_fetch_warc_range
    rw [if_pos hc]
    show (kraine_fetch_warc_range_loop 3 t (WarcEvent.resp status gz raw :: rest)).result
        = some (gz.getD raw)
    have h2xx : (status == 200 || status == 206) = true := by
      rcases hst with rfl | rfl <;> rfl
    simp only [kraine_fetch_warc_range_loop, nextWarcEvent, h2xx, if_true]
    cases gz <;> rfl
  · intro hall
    unfold fetch_warc_range
    by_cases hc : t.can_make_request = true
    · rw [if_pos hc]
      try dsimp only
      exact fetch_loop_all_exc Config.MAX_RETRIES t env hall
    · rw [if_neg hc]
      try dsimp only
      exact ⟨rfl, by omega⟩

/-- Counterexample to claim C9 as stated: three 200 responses whose body
fails gzip decompression make the CORE `fetch_warc_range` return the
fetch-failed value `None` instead of falling back to the raw decode
("rawtext"), which is what the SCRIPTS variant returns on the same
environment. -/
theorem claim_C9_counterexample :
    (fetch_warc_range (RequestTracker.init 200) "x.warc.gz" 0 10
        [WarcEvent.resp 200 none "rawtext", WarcEvent.resp 200 none "rawtext",
         WarcEvent.resp 200 none "rawtext"]).result = none
    ∧ (kraine_fetch_warc_range (RequestTracker.init 200) "x.warc.gz" 0 10
        [WarcEvent.resp 200 none "rawtext", WarcEvent.resp 200 none "rawtext",
         WarcEvent.resp 200 none "rawtext"]).result = some "rawtext" :=
  ⟨rfl, rfl⟩

/-- Witness for claim C9 at concrete inputs: the scripts variant returns
the raw decode on a 206 response with failing gzip, and the core variant
returns `None` after an environment of raised requests. -/
theorem claim_C9_witness :
    (kraine_fetch_warc_range (RequestTracker.init 200) "w.warc.gz" 5 10
        [WarcEvent.resp 206 none "raw"]).result = some "raw"
    ∧ (fetch_warc_range (RequestTracker.init 200) "w.warc.gz" 5 10
        [WarcEvent.exc]).result = none := by
  constructor
  · have h := (claim_C9 (RequestTracker.init 200) "w.warc.gz" 5 10
        [WarcEvent.resp 206 none "raw"]).2.1 206 none "raw" [] rfl (by decide) (Or.inr rfl)
    simpa using h
  · exact ((claim_C9 (RequestTracker.init 200) "w.warc.gz" 5 10 [WarcEvent.exc]).2.2
      (by intro ev hev; simpa using List.mem_singleton.mp hev)).1

/-! ## `process_record` lemmas -/

/-- Statistics effect of the translation block: the counters the save
step cares about are untouched and the error list grows only by
translation keys (never by "save_failed"). -/
theorem translationBlock_stats (country : String) (tp : Bool) (title text : String)
    (trr : Option String) (stats : ScraperStats) :
    ∃ mid, (translationBlock country tp title text trr stats).stats.errors
        = stats.errors ++ mid
      ∧ mid.count "save_failed" = 0
      ∧ (translationBlock country tp title text trr stats).stats.articles_saved
          = stats.articles_saved
      ∧ (translationBlock country tp title text trr stats).stats.sources = stats.sources
      ∧ (translationBlock country tp title text trr stats).stats.duplicates_skipped
          = stats.duplicates_skipped := by
  unfold translationBlock
  split
  · exact ⟨[], by simp, by decide, rfl, rfl, rfl⟩
  · split
    · split
      · exact ⟨["translation_failed"], rfl, by decide, rfl, rfl, rfl⟩
      · split
        · exact ⟨[], by simp, by decide, rfl, rfl, rfl⟩
        · exact ⟨["translation_split_failed"], rfl, by decide, rfl, rfl, rfl⟩
    · exact ⟨[], by simp, by decide, rfl, rfl, rfl⟩

/-- Behaviour of `process_record` on the success path, under the branch
conditions that lead past the relevance gate: the tracker is the fetch's
tracker, exactly the fetch's requests were issued, any returned record
carries the recomputed score and the 5-truncated matched list, a
successful save appends the fingerprint to the seen set, and a failed
save leaves the seen set, the saved counter, the per-source counter and
the duplicate counter unchanged while growing the error list by exactly
one "save_failed" entry. -/
theorem process_record_success_facts (t : RequestTracker) (rec : CdxRec) (country : String)
    (seen : List String) (stats : ScraperStats) (tp : Bool) (env : RecordEnv)
    (u warc : String) (offset length : Int) (content : String) (article : Article)
    (hb : t.blocked = false) (hu : rec.url = some u) (hh : pyStartsWith u "http" = true)
    (hns : seen.contains (md5 u) = false)
    (hw : rec.filename = some warc) (ho : rec.offset = some offset)
    (hl : rec.length = some length) (hwne : ¬ warc = "")
    (hfetch : (fetch_warc_range t warc offset length env.warcEnv).result = some content)
    (hcne : ¬ content = "")
    (hex : env.extract (stripPreamble content) = some article)
    (hlen : ¬ article.text.length < 100)
    (hrel : is_relevant article.text article.title = true) :
    (process_record t rec country seen stats tp env).tracker
        = (fetch_warc_range t warc offset length env.warcEnv).tracker
    ∧ (process_record t rec country seen stats tp env).fetchIssued
        = (fetch_warc_range t warc offset length env.warcEnv).issued
    ∧ (∀ r, (process_record t rec country seen stats tp env).result = some r →
          r.relevance_score = (calculate_relevance_score article.text article.title).1
          ∧ r.matched_keywords
              = ((calculate_relevance_score article.text article.title).2).take 5)
    ∧ (env.saveOk = true →
          (process_record t rec country seen stats tp env).seen = seen ++ [md5 u]
          ∧ ∃ r, (process_record t rec country seen stats tp env).result = some r)
    ∧ (env.saveOk = false →
          (process_record t rec country seen stats tp env).seen = seen
          ∧ (process_record t rec country seen stats tp env).result = none
          ∧ (process_record t rec country seen stats tp env).fileAppend = none
          ∧ (process_record t rec country seen stats tp env).saveAttempted = true
          ∧ (process_record t rec country seen stats tp env).stats.articles_saved
              = stats.articles_saved
          ∧ (process_record t rec country seen stats tp env).stats.sources = stats.sources
          ∧ (process_record t rec country seen stats tp env).stats.duplicates_skipped
              = stats.duplicates_skipped
          ∧ ∃ mid, (process_record t rec country seen stats tp env).stats.errors
                = stats.errors ++ mid ++ ["save_failed"]
              ∧ mid.count "save_failed" = 0) := by
  unfold process_record
  rw [if_neg (by simp [RequestTracker.is_blocked, hb])]
  rw [hu]
  try dsimp only
  rw [if_neg (by simp [hh])]
  rw [if_neg (by rw [hns]; exact Bool.false_ne_true)]
  rw [hw, ho, hl]
  try dsimp only
  rw [if_neg hwne]
  try dsimp only
  rw [hfetch]
  try dsimp only
  rw [if_neg hcne]
  rw [hex]
  try dsimp only
  rw [if_neg hlen]
  rw [if_neg (by simp [hrel])]
  try dsimp only
  by_cases hsave : env.saveOk = true
  · rw [if_pos hsave]
    refine ⟨rfl, rfl, ?_, fun _ => ⟨rfl, ⟨_, rfl⟩⟩, ?_⟩
    · intro r hr
      have := Option.some.inj hr
      rw [← this]
      exact ⟨rfl, rfl⟩
    · intro habs; rw [habs] at hsave; cases hsave
  · rw [if_neg hsave]
    obtain ⟨mid, herr, hcnt, hsaved, hsources, hdup⟩ :=
      translationBlock_stats country tp article.title article.text env.translateResult
        { stats with
          records_processed := stats.records_processed + 1,
          articles_extracted := stats.articles_extracted + 1,
          articles_relevant := stats.articles_relevant + 1 }
    refine ⟨rfl, rfl, ?_, ?_, ?_⟩
    · intro r hr; cases hr
    · intro habs; exact absurd habs hsave
    · intro _
      refine ⟨rfl, rfl, rfl, rfl, ?_, ?_, ?_, mid, ?_, hcnt⟩
      · exact hsaved
      · exact hsources
      · exact hdup
      · show (translationBlock country tp article.title article.text env.translateResult
            _).stats.errors ++ ["save_failed"] = stats.errors ++ mid ++ ["save_failed"]
        rw [herr]

/-- Reaching the save step of `process_record` (a returned record or a
recorded save attempt) pins down every branch on the way there. -/
theorem process_record_reached_save {t : RequestTracker} {rec : CdxRec} {country : String}
    {seen : List String} {stats : ScraperStats} {tp : Bool} {env : RecordEnv}
    (h : ¬ (process_record t rec country seen stats tp env).result = none
       ∨ (process_record t rec country seen stats tp env).saveAttempted = true) :
    t.blocked = false
    ∧ ∃ u warc offset length content article,
        rec.url = some u ∧ pyStartsWith u "http" = true
        ∧ seen.contains (md5 u) = false
        ∧ rec.filename = some warc ∧ rec.offset = some offset ∧ rec.length = some length
        ∧ ¬ warc = ""
        ∧ (fetch_warc_range t warc offset length env.warcEnv).result = some content
        ∧ ¬ content = ""
        ∧ env.extract (stripPreamble content) = some article
        ∧ ¬ article.text.length < 100
        ∧ is_relevant article.text article.title = true := by
  obtain ⟨url, fn, off, len, ts⟩ := rec
  unfold process_record at h
  by_cases hb : t.blocked = true
  · rw [if_pos (by simp [RequestTracker.is_blocked, hb])] at h
    simp [ProcOut.skip] at h
  · have hb' : t.blocked = false := by revert hb; cases t.blocked <;> simp
    rw [if_neg (by simp [RequestTracker.is_blocked, hb'])] at h
    refine ⟨hb', ?_⟩
    cases url with
    | none => simp [ProcOut.skip] at h
    | some u =>
      try dsimp only at h
      by_cases hh : pyStartsWith u "http" = true
      · rw [if_neg (by simp [hh])] at h
        by_cases hseen : seen.contains (md5 u) = true
        · rw [if_pos hseen] at h
          simp [ProcOut.skip] at h
        · have hseen' : seen.contains (md5 u) = false := by
            revert hseen; cases seen.contains (md5 u) <;> simp
          rw [if_neg (by rw [hseen']; exact Bool.false_ne_true)] at h
          cases fn with
          | none => simp [ProcOut.skip] at h
          | some warc =>
            cases off with
            | none => simp [ProcOut.skip] at h
            | some offset =>
              cases len with
              | none => simp [ProcOut.skip] at h
              | some length =>
                try dsimp only at h
                by_cases hw : warc = ""
                · rw [if_pos hw] at h
                  simp [ProcOut.skip] at h
                · rw [if_neg hw] at h
                  try dsimp only at h
                  cases hfetch : (fetch_warc_range t warc offset length env.warcEnv).result with
                  | none =>
                    rw [hfetch] at h
                    simp [ProcOut.skip] at h
                  | some content =>
                    rw [hfetch] at h
                    try dsimp only at h
                    by_cases hc : content = ""
                    · rw [if_pos hc] at h
                      simp [ProcOut.skip] at h
                    · rw [if_neg hc] at h
                      cases hex : env.extract (stripPreamble content) with
                      | none =>
                        rw [hex] at h
                        simp [ProcOut.skip] at h
                      | some article =>
                        rw [hex] at h
                        try dsimp only at h
                        by_cases hlen : article.text.length < 100
                        · rw [if_pos hlen] at h
                          simp [ProcOut.skip] at h
                        · rw [if_neg hlen] at h
                          by_cases hrel : is_relevant article.text article.title = true
                          · exact ⟨u, warc, offset, length, content, article, rfl, hh,
                              hseen', rfl, rfl, rfl, hw, hfetch, hc, hex, hlen, hrel⟩
                          · rw [if_pos hrel] at h
                            simp [ProcOut.skip] at h
      · rw [if_pos hh] at h
        simp [ProcOut.skip] at h

/-- A duplicate URL (fingerprint already in the seen set) is skipped
with exactly one `duplicates_skipped` increment and no other effect. -/
theorem process_record_dup (t : RequestTracker) (rec : CdxRec) (country : String)
    (seen : List String) (stats : ScraperStats) (tp : Bool) (env : RecordEnv) (u : String)
    (hb : t.blocked = false) (hu : rec.url = some u) (hh : pyStartsWith u "http" = true)
    (hs : seen.contains (md5 u) = true) :
    process_record t rec country seen stats tp env
      = ProcOut.skip t seen
          { stats with duplicates_skipped := stats.duplicates_skipped + 1 } := by
  unfold process_record
  rw [if_neg (by simp [RequestTracker.is_blocked, hb])]
  rw [hu]
  try dsimp only
  rw [if_neg (by simp [hh])]
  rw [if_pos hs]

/-- Request accounting of one full `process_record` invocation: the
budget is preserved, the counter overshoots the budget by at most the
in-flight calls of one invocation, no request and no translator call is
issued while blocked, and a tracker at or over its budget issues
nothing. -/
theorem process_record_facts (t : RequestTracker) (rec : CdxRec) (country : String)
    (seen : List String) (stats : ScraperStats) (tp : Bool) (env : RecordEnv) :
    (process_record t rec country seen stats tp env).tracker.max_requests = t.max_requests
    ∧ (process_record t rec country seen stats tp env).tracker.request_count
        ≤ max t.request_count (t.max_requests + 5)
    ∧ (process_record t rec country seen stats tp env).badIssued = 0
    ∧ (process_record t rec country seen stats tp env).badTranslate = false
    ∧ (t.blocked = true → (process_record t rec country seen stats tp env).fetchIssued = 0
        ∧ (process_record t rec country seen stats tp env).tracker = t)
    ∧ (t.max_requests ≤ t.request_count →
        (process_record t rec country seen stats tp env).fetchIssued = 0) := by
  unfold process_record
  by_cases hbl : t.is_blocked
  · rw [if_pos hbl]
    exact ⟨rfl, Nat.le_max_left _ _, rfl, rfl, fun _ => ⟨rfl, rfl⟩, fun _ => rfl⟩
  · rw [if_neg hbl]
    have hb : t.blocked = false := by
      revert hbl; unfold RequestTracker.is_blocked; cases t.blocked <;> simp
    cases hurl : rec.url with
    | none => exact ⟨rfl, Nat.le_max_left _ _, rfl, rfl, fun _ => ⟨rfl, rfl⟩, fun _ => rfl⟩
    | some url =>
      try dsimp only
      split
      · exact ⟨rfl, Nat.le_max_left _ _, rfl, rfl, fun _ => ⟨rfl, rfl⟩, fun _ => rfl⟩
      · split
        · exact ⟨rfl, Nat.le_max_left _ _, rfl, rfl, fun _ => ⟨rfl, rfl⟩, fun _ => rfl⟩
        · split
          · rename_i warc offset length hfneq hoffeq hleneq
            split
            · exact ⟨rfl, Nat.le_max_left _ _, rfl, rfl, fun _ => ⟨rfl, rfl⟩, fun _ => rfl⟩
            · try dsimp only
              obtain ⟨hm, hcount, hbad0, _, hsucc, hcap⟩ :=
                fetch_warc_range_facts t warc offset length env.warcEnv
              cases hres : (fetch_warc_range t warc offset length env.warcEnv).result with
              | none =>
                exact ⟨hm, hcount, hbad0, rfl, fun h => absurd h (by simp [hb]),
                  fun h => hcap h⟩
              | some content =>
                have hnotb := hsucc hb content hres
                try dsimp only
                split
                all_goals try split
                all_goals try split
                all_goals try split
                all_goals try split
                all_goals refine ⟨hm, hcount, hbad0, ?_,
                  fun h => absurd h (by simp [hb]), fun h => hcap h⟩
                all_goals first
                  | rfl
                  | simp [hnotb]
          · exact ⟨rfl, Nat.le_max_left _ _, rfl, rfl, fun _ => ⟨rfl, rfl⟩, fun _ => rfl⟩

/-- The record loop preserves the run-level accounting invariant. -/
theorem recordLoop_facts (country : String) (target : Nat) (tp : Bool) (M : Nat) :
    ∀ (rs : List CdxRec) (envs : List RecordEnv) (st : RunState) (seen : List String),
    st.tracker.max_requests = M → st.tracker.request_count ≤ M + 5 →
    st.badIssued = 0 → st.badTranslate = 0 →
    (recordLoop country target tp rs envs st seen).1.tracker.max_requests = M
    ∧ (recordLoop country target tp rs envs st seen).1.tracker.request_count ≤ M + 5
    ∧ (recordLoop country target tp rs envs st seen).1.badIssued = 0
    ∧ (recordLoop country target tp rs envs st seen).1.badTranslate = 0 := by
  intro rs
  induction rs with
  | nil => intro envs st seen h1 h2 h3 h4; exact ⟨h1, h2, h3, h4⟩
  | cons r rs ih =>
    intro envs st seen h1 h2 h3 h4
    simp only [recordLoop]
    split
    · exact ⟨h1, h2, h3, h4⟩
    · try dsimp only
      obtain ⟨pm, pc, pb, pt, _, _⟩ := process_record_facts st.tracker r country seen
        st.stats tp (nextRecordEnv envs).1
      rw [h1] at pc
      have hc : (process_record st.tracker r country seen st.stats tp
          (nextRecordEnv envs).1).tracker.request_count ≤ M + 5 :=
        le_trans pc (Nat.max_le.mpr ⟨h2, Nat.le_refl _⟩)
      have hbad : st.badIssued
          + (process_record st.tracker r country seen st.stats tp
            (nextRecordEnv envs).1).badIssued = 0 := by rw [h3, pb]
      have htr : st.badTranslate
          + (if (process_record st.tracker r country seen st.stats tp
            (nextRecordEnv envs).1).badTranslate = true then 1 else 0) = 0 := by
        rw [h4, pt]; simp
      exact ih _ _ _ (pm.trans h1) hc hbad htr

/-- The index loop preserves the run-level accounting invariant. -/
theorem indexLoop_facts (country domain : String) (target : Nat) (tp : Bool) (M : Nat) :
    ∀ (idxs : List String) (st : RunState) (seen : List String),
    st.tracker.max_requests = M → st.tracker.request_count ≤ M + 5 →
    st.badIssued = 0 → st.badTranslate = 0 →
    (indexLoop country domain target tp idxs st seen).1.tracker.max_requests = M
    ∧ (indexLoop country domain target tp idxs st seen).1.tracker.request_count ≤ M + 5
    ∧ (indexLoop country domain target tp idxs st seen).1.badIssued = 0
    ∧ (indexLoop country domain target tp idxs st seen).1.badTranslate = 0 := by
  intro idxs
  induction idxs with
  | nil => intro st seen h1 h2 h3 h4; exact ⟨h1, h2, h3, h4⟩
  | cons idx rest ih =>
    intro st seen h1 h2 h3 h4
    simp only [indexLoop]
    split
    · exact ⟨h1, h2, h3, h4⟩
    · try dsimp only
      obtain ⟨qm, qc, qb, _, _⟩ :=
        query_cdx_facts st.tracker (nextIndexEnv st.stream).1.cdxEnv
      rw [h1] at qc
      have hqc :
          (query_cdx st.tracker (nextIndexEnv st.stream).1.cdxEnv).tracker.request_count
            ≤ M + 5 :=
        le_trans qc (Nat.max_le.mpr ⟨h2, Nat.le_refl _⟩)
      have hqb : st.badIssued
          + (query_cdx st.tracker (nextIndexEnv st.stream).1.cdxEnv).badIssued = 0 := by
        rw [h3, qb]
      split
      · exact ih _ _ (qm.trans h1) hqc hqb h4
      · try dsimp only
        refine ih _ _ ?_ ?_ ?_ ?_
        · refine (recordLoop_facts country target tp M _ _ _ _ ?_ ?_ ?_ ?_).1
          · exact qm.trans h1
          · exact hqc
          · exact hqb
          · exact h4
        · refine (recordLoop_facts country target tp M _ _ _ _ ?_ ?_ ?_ ?_).2.1
          · exact qm.trans h1
          · exact hqc
          · exact hqb
          · exact h4
        · refine (recordLoop_facts country target tp M _ _ _ _ ?_ ?_ ?_ ?_).2.2.1
          · exact qm.trans h1
          · exact hqc
          · exact hqb
          · exact h4
        · refine (recordLoop_facts country target tp M _ _ _ _ ?_ ?_ ?_ ?_).2.2.2
          · exact qm.trans h1
          · exact hqc
          · exact hqb
          · exact h4

/-- The domain loop preserves the run-level accounting invariant. -/
theorem domainLoop_facts (country : String) (indices : List String) (target : Nat)
    (tp : Bool) (M : Nat) :
    ∀ (ds : List String) (st : RunState) (seen : List String),
    st.tracker.max_requests = M → st.tracker.request_count ≤ M + 5 →
    st.badIssued = 0 → st.badTranslate = 0 →
    (domainLoop country indices target tp ds st seen).1.tracker.max_requests = M
    ∧ (domainLoop country indices target tp ds st seen).1.tracker.request_count ≤ M + 5
    ∧ (domainLoop country indices target tp ds st seen).1.badIssued = 0
    ∧ (domainLoop country indices target tp ds st seen).1.badTranslate = 0 := by
  intro ds
  induction ds with
  | nil => intro st seen h1 h2 h3 h4; exact ⟨h1, h2, h3, h4⟩
  | cons d rest ih =>
    intro st seen h1 h2 h3 h4
    simp only [domainLoop]
    split
    · exact ⟨h1, h2, h3, h4⟩
    · try dsimp only
      obtain ⟨i1, i2, i3, i4⟩ := indexLoop_facts country d target tp M indices st seen
        h1 h2 h3 h4
      exact ih _ _ i1 i2 i3 i4

/-- The country loop preserves the run-level accounting invariant. -/
theorem countryLoop_facts (indices : List String) (target : Nat) (tp : Bool)
    (seenInit : String → List String) (M : Nat) :
    ∀ (l : List (String × List String)) (started : Bool) (start : Option String)
      (st : RunState),
    st.tracker.max_requests = M → st.tracker.request_count ≤ M + 5 →
    st.badIssued = 0 → st.badTranslate = 0 →
    (countryLoop indices target tp seenInit started start l st).tracker.max_requests = M
    ∧ (countryLoop indices target tp seenInit started start l st).tracker.request_count
        ≤ M + 5
    ∧ (countryLoop indices target tp seenInit started start l st).badIssued = 0
    ∧ (countryLoop indices target tp seenInit started start l st).badTranslate = 0 := by
  intro l
  induction l with
  | nil => intro started start st h1 h2 h3 h4; exact ⟨h1, h2, h3, h4⟩
  | cons p rest ih =>
    intro started start st h1 h2 h3 h4
    obtain ⟨c, ds⟩ := p
    simp only [countryLoop]
    split
    · exact ⟨h1, h2, h3, h4⟩
    · split
      · try dsimp only
        obtain ⟨d1, d2, d3, d4⟩ := domainLoop_facts c indices target tp M ds
          { st with seenLoads := st.seenLoads ++ [c] } (seenInit c) h1 h2 h3 h4
        exact ih true start _ d1 d2 d3 d4
      · exact ih started start st h1 h2 h3 h4

/-- A run state that already satisfies the stop condition is returned
unchanged by the country loop. -/
theorem countryLoop_guard_stop (indices : List String) (target : Nat) (tp : Bool)
    (seenInit : String → List String) (started : Bool) (start : Option String)
    (l : List (String × List String)) (st : RunState)
    (h : (decide (target ≤ st.stats.articles_saved) || st.tracker.blocked) = true) :
    countryLoop indices target tp seenInit started start l st = st := by
  cases l with
  | nil => rfl
  | cons p rest =>
    obtain ⟨c, ds⟩ := p
    simp only [countryLoop]
    rw [if_pos h]

/-- Once the resume flag is set, the persisted cursor value is never
consulted again. -/
theorem countryLoop_start_irrel (indices : List String) (target : Nat) (tp : Bool)
    (seenInit : String → List String) (start : Option String) :
    ∀ (l : List (String × List String)) (st : RunState),
    countryLoop indices target tp seenInit true start l st
      = countryLoop indices target tp seenInit true none l st := by
  intro l
  induction l with
  | nil => intro st; rfl
  | cons p rest ih =>
    intro st
    obtain ⟨c, ds⟩ := p
    simp only [countryLoop, Bool.true_or, if_true]
    split
    · rfl
    · try dsimp only
      exact ih _

/-- Country-loop resume equation: running with the resume flag down and
a cursor `s` is the same as running with the flag up on the suffix of
the country list that starts at the first entry named `s`. -/
theorem countryLoop_resume (indices : List String) (target : Nat) (tp : Bool)
    (seenInit : String → List String) (s : String) :
    ∀ (l : List (String × List String)) (st : RunState),
    countryLoop indices target tp seenInit false (some s) l st
      = countryLoop indices target tp seenInit true none
          (l.dropWhile (fun p => p.1 != s)) st := by
  intro l
  induction l with
  | nil => intro st; rfl
  | cons p rest ih =>
    intro st
    obtain ⟨c, ds⟩ := p
    by_cases hcs : c = s
    · subst hcs
      have hdw : (((c, ds) :: rest).dropWhile (fun p => p.1 != c)) = (c, ds) :: rest := by
        simp [List.dropWhile]
      rw [hdw]
      simp only [countryLoop, Bool.false_or, Bool.true_or]
      by_cases hg : (decide (target ≤ st.stats.articles_saved) || st.tracker.blocked) = true
      · rw [if_pos hg, if_pos hg]
      · rw [if_neg hg, if_neg hg]
        have hself : ((some c == some c) : Bool) = true := by simp
        rw [if_pos hself, if_pos trivial]
        try dsimp only
        exact countryLoop_start_irrel indices target tp seenInit (some c) rest _
    · have hcs' : (c != s) = true := by
        simp only [bne_iff_ne, ne_eq]
        exact hcs
      have hdw : (((c, ds) :: rest).dropWhile (fun p => p.1 != s))
          = rest.dropWhile (fun p => p.1 != s) := by
        simp [List.dropWhile, hcs']
      rw [hdw]
      simp only [countryLoop, Bool.false_or]
      by_cases hg : (decide (target ≤ st.stats.articles_saved) || st.tracker.blocked) = true
      · rw [if_pos hg]
        exact (countryLoop_guard_stop indices target tp seenInit true none _ st hg).symm
      · rw [if_neg hg]
        have hne : ((some s == some c) : Bool) = false := by
          rw [beq_eq_false_iff_ne]
          exact fun h => hcs (Option.some.inj h).symm
        rw [hne, if_neg (by exact Bool.false_ne_true)]
        exact ih st

/-- Claim C3: every record returned (and therefore written to the output
log) by the core `process_record` carries a relevance score of at least
the configured minimum 4: records scoring below the `is_relevant`
threshold are dropped before the save step. -/
theorem claim_C3 (t : RequestTracker) (rec : CdxRec) (country : String)
    (seen : List String) (stats : ScraperStats) (tp : Bool) (env : RecordEnv)
    (r : ResultRecord)
    (h : (process_record t rec country seen stats tp env).result = some r) :
    (4 : Int) ≤ r.relevance_score := by
  obtain ⟨hb, u, warc, offset, length, content, article, hu, hh, hns, hw, ho, hl, hwne,
    hfetch, hcne, hex, hlen, hrel⟩ :=
    process_record_reached_save (Or.inl (fun hn => by rw [hn] at h; cases h))
  obtain ⟨_, _, hres, _, _⟩ := process_record_success_facts t rec country seen stats tp env
    u warc offset length content article hb hu hh hns hw ho hl hwne hfetch hcne hex hlen hrel
  obtain ⟨hscore, _⟩ := hres r h
  rw [hscore]
  unfold is_relevant is_relevant_min at hrel
  exact of_decide_eq_true hrel

/-- Witness for claim C3: a concrete record that is fetched, extracted
and saved; its stored score is at least 4. -/
theorem claim_C3_witness :
    ∃ r, (process_record (RequestTracker.init 200) (sampleRec "http://dn.pt/a1") "PT" []
        ScraperStats.init false (sampleEnv true)).result = some r
      ∧ (4 : Int) ≤ r.relevance_score :=
  ⟨_, rfl, claim_C3 (RequestTracker.init 200) (sampleRec "http://dn.pt/a1") "PT" []
    ScraperStats.init false (sampleEnv true) _ rfl⟩

/-- Counterexample for claim C4 as stated: the same record processed
twice in one run, where the first occurrence's WARC fetch fails (a 500
response then two raised requests).  The first occurrence is not saved,
so its fingerprint never enters the seen set: the second occurrence is
NOT counted as a duplicate (`duplicates_skipped` stays 0) and issues
three further fetch requests instead of zero. -/
theorem claim_C4_counterexample :
    (let env : RecordEnv :=
       { warcEnv := [WarcEvent.resp 500 none "", WarcEvent.exc, WarcEvent.exc],
         extract := fun _ => none, translateResult := none, saveOk := true, nowIso := "" }
     let r1 := sampleRec "http://dn.pt/dup"
     let out1 := process_record (RequestTracker.init 200) r1 "PT" [] ScraperStats.init
        false env
     let out2 := process_record out1.tracker r1 "PT" out1.seen out1.stats false env
     out2.stats.duplicates_skipped = 0 ∧ out2.fetchIssued = 3) := by
  decide

/-- Claim C4 (amended): whenever the first occurrence of a URL was saved
(so its fingerprint entered the seen set), processing a second record
with the same URL in the same run increments `duplicates_skipped` by
exactly one, issues zero fetch requests, saves nothing, appends nothing
to the output log and leaves the seen set unchanged — regardless of
which index page each occurrence came from.  A first occurrence that
was NOT saved leaves the URL eligible, and the second occurrence is
processed afresh (see the counterexample). -/
theorem claim_C4 (t : RequestTracker) (r1 : CdxRec) (country : String)
    (seen : List String) (stats : ScraperStats) (tp : Bool) (env1 env2 : RecordEnv)
    (r : ResultRecord)
    (h : (process_record t r1 country seen stats tp env1).result = some r) :
    (let out1 := process_record t r1 country seen stats tp env1
     let out2 := process_record out1.tracker r1 country out1.seen out1.stats tp env2
     out2.stats.duplicates_skipped = out1.stats.duplicates_skipped + 1
       ∧ out2.fetchIssued = 0 ∧ out2.result = none ∧ out2.fileAppend = none
       ∧ out2.seen = out1.seen) := by
  obtain ⟨hb, u, warc, offset, length, content, article, hu, hh, hns, hw, ho, hl, hwne,
    hfetch, hcne, hex, hlen, hrel⟩ :=
    process_record_reached_save (Or.inl (fun hn => by rw [hn] at h; cases h))
  obtain ⟨htr, _, _, hsaveT, hsaveF⟩ := process_record_success_facts t r1 country seen stats
    tp env1 u warc offset length content article hb hu hh hns hw ho hl hwne hfetch hcne hex
    hlen hrel
  by_cases hsv : env1.saveOk = true
  · obtain ⟨hseen1, _⟩ := hsaveT hsv
    have hblocked : (process_record t r1 country seen stats tp env1).tracker.blocked
        = false := by
      rw [htr]
      exact (fetch_warc_range_facts t warc offset length env1.warcEnv).2.2.2.2.1 hb
        content hfetch
    have hcont : ((process_record t r1 country seen stats tp env1).seen).contains (md5 u)
        = true := by
      rw [hseen1]
      simp
    try dsimp only
    rw [process_record_dup (process_record t r1 country seen stats tp env1).tracker r1
      country (process_record t r1 country seen stats tp env1).seen
      (process_record t r1 country seen stats tp env1).stats tp env2 u hblocked hu hh hcont]
    exact ⟨rfl, rfl, rfl, rfl, rfl⟩
  · have hsvf : env1.saveOk = false := by revert hsv; cases env1.saveOk <;> simp
    rw [(hsaveF hsvf).2.1] at h
    cases h

/-- Witness for claim C4: a record that is saved on first sight and
skipped as a duplicate (with no fetch) on second sight. -/
theorem claim_C4_witness :
    (let out1 := process_record (RequestTracker.init 200) (sampleRec "http://dn.pt/a3") "PT"
        [] ScraperStats.init false (sampleEnv true)
     let out2 := process_record out1.tracker (sampleRec "http://dn.pt/a3") "PT" out1.seen
        out1.stats false (sampleEnv true)
     out2.stats.duplicates_skipped = out1.stats.duplicates_skipped + 1
       ∧ out2.fetchIssued = 0) := by
  have h := claim_C4 (RequestTracker.init 200) (sampleRec "http://dn.pt/a3") "PT" []
    ScraperStats.init false (sampleEnv true) (sampleEnv true) _ rfl
  exact ⟨h.1, h.2.1⟩

/-- Claim C6: the relevance score equals 3·(high matches) + 2·(medium
matches) − 5·(exclusion matches), all counted by substring containment
over the lower-cased combination of title and text; the matched list is
exactly the matched high keywords followed by the matched medium
keywords (exclusion keywords are never recorded); and the record stored
by `process_record` carries that matched list truncated to at most 5
entries. -/
theorem claim_C6 :
    (∀ text title,
        calculate_relevance_score text title
          = (3 * (matchCount Config.HIGH_RELEVANCE_KEYWORDS (combinedLower text title) : Int)
              + 2 * (matchCount Config.MEDIUM_RELEVANCE_KEYWORDS
                  (combinedLower text title) : Int)
              - 5 * (matchCount Config.EXCLUDE_KEYWORDS (combinedLower text title) : Int),
             Config.HIGH_RELEVANCE_KEYWORDS.filter
                 (fun kw => pyIn kw (combinedLower text title))
               ++ Config.MEDIUM_RELEVANCE_KEYWORDS.filter
                    (fun kw => pyIn kw (combinedLower text title))))
    ∧ (∀ (t : RequestTracker) (rec : CdxRec) (country : String) (seen : List String)
        (stats : ScraperStats) (tp : Bool) (env : RecordEnv) (r : ResultRecord),
        (process_record t rec country seen stats tp env).result = some r →
        (∃ te ti, r.relevance_score = (calculate_relevance_score te ti).1
            ∧ r.matched_keywords = ((calculate_relevance_score te ti).2).take 5)
        ∧ r.matched_keywords.length ≤ 5) := by
  constructor
  · exact score_closed_form
  · intro t rec country seen stats tp env r h
    obtain ⟨hb, u, warc, offset, length, content, article, hu, hh, hns, hw, ho, hl, hwne,
      hfetch, hcne, hex, hlen, hrel⟩ :=
      process_record_reached_save (Or.inl (fun hn => by rw [hn] at h; cases h))
    obtain ⟨_, _, hres, _, _⟩ := process_record_success_facts t rec country seen stats tp env
      u warc offset length content article hb hu hh hns hw ho hl hwne hfetch hcne hex hlen hrel
    obtain ⟨hsc, hmk⟩ := hres r h
    refine ⟨⟨article.text, article.title, hsc, hmk⟩, ?_⟩
    rw [hmk, List.length_take]
    exact min_le_left _ _

/-- Witness for claim C6: the concrete saved record's matched list has
at most 5 entries. -/
theorem claim_C6_witness :
    ∃ r, (process_record (RequestTracker.init 200) (sampleRec "http://dn.pt/a2") "PT" []
        ScraperStats.init false (sampleEnv true)).result = some r
      ∧ r.matched_keywords.length ≤ 5 := by
  refine ⟨_, rfl, ?_⟩
  exact (claim_C6.2 (RequestTracker.init 200) (sampleRec "http://dn.pt/a2") "PT" []
    ScraperStats.init false (sampleEnv true) _ rfl).2

/-- Claim C10: when the output-log append fails, the per-record pipeline
leaves the shared state unchanged — the fingerprint is not added to the
seen set (so the URL stays eligible for a later retry), the saved
counter, the per-source counter and the duplicate counter keep their
values, no record and no file line is produced, and the error tally
grows by exactly one "save_failed" entry (any other growth of the error
list comes from the translation step, never from the save). -/
theorem claim_C10 (t : RequestTracker) (rec : CdxRec) (country : String)
    (seen : List String) (stats : ScraperStats) (tp : Bool) (env : RecordEnv)
    (hsave : env.saveOk = false)
    (hatt : (process_record t rec country seen stats tp env).saveAttempted = true) :
    (process_record t rec country seen stats tp env).seen = seen
    ∧ (process_record t rec country seen stats tp env).result = none
    ∧ (process_record t rec country seen stats tp env).fileAppend = none
    ∧ (process_record t rec country seen stats tp env).stats.articles_saved
        = stats.articles_saved
    ∧ (process_record t rec country seen stats tp env).stats.sources = stats.sources
    ∧ (process_record t rec country seen stats tp env).stats.duplicates_skipped
        = stats.duplicates_skipped
    ∧ (process_record t rec country seen stats tp env).stats.errors.count "save_failed"
        = stats.errors.count "save_failed" + 1 := by
  obtain ⟨hb, u, warc, offset, length, content, article, hu, hh, hns, hw, ho, hl, hwne,
    hfetch, hcne, hex, hlen, hrel⟩ :=
    process_record_reached_save (Or.inr hatt)
  obtain ⟨_, _, _, _, hF⟩ := process_record_success_facts t rec country seen stats tp env
    u warc offset length content article hb hu hh hns hw ho hl hwne hfetch hcne hex hlen hrel
  obtain ⟨hseen, hres, hfile, _, hsaved, hsrc, hdup, mid, herr, hcnt⟩ := hF hsave
  refine ⟨hseen, hres, hfile, hsaved, hsrc, hdup, ?_⟩
  rw [herr, List.count_append, List.count_append, hcnt]
  have h1 : (["save_failed"] : List String).count "save_failed" = 1 := by decide
  rw [h1]

/-- Witness for claim C10: a concrete record whose save fails; the seen
set stays empty, nothing is counted as saved, and exactly one
"save_failed" error is recorded. -/
theorem claim_C10_witness :
    (process_record (RequestTracker.init 200) (sampleRec "http://dn.pt/a4") "PT" []
        ScraperStats.init false (sampleEnv false)).seen = []
    ∧ (process_record (RequestTracker.init 200) (sampleRec "http://dn.pt/a4") "PT" []
        ScraperStats.init false (sampleEnv false)).stats.articles_saved = 0
    ∧ (process_record (RequestTracker.init 200) (sampleRec "http://dn.pt/a4") "PT" []
        ScraperStats.init false (sampleEnv false)).stats.errors.count "save_failed" = 1 := by
  have h := claim_C10 (RequestTracker.init 200) (sampleRec "http://dn.pt/a4") "PT" []
    ScraperStats.init false (sampleEnv false) rfl rfl
  exact ⟨h.1, h.2.2.2.1, h.2.2.2.2.2.2⟩

/-- Claim C1: over every full run of the harvest loop, no network
request is ever issued while the tracker's blocked flag is up
(`badIssued`, which counts requests sent after blocking, is zero), the
translator is never invoked while blocked (`badTranslate` is zero), the
configured budget itself is never changed, and the final request counter
exceeds the configured `max_requests` by at most the in-flight calls of
the single guarded invocation that reached the limit (at most 5 beyond
the budget, since one invocation checks the guard once and then issues
at most `MAX_RETRIES` requests per endpoint). -/
theorem claim_C1 (domains_map : List (String × List String)) (indices : List String)
    (target_limit max_requests : Nat) (startCountry : Option String) (env : RunEnv) :
    (run_scraper domains_map indices target_limit max_requests startCountry env).badIssued
        = 0
    ∧ (run_scraper domains_map indices target_limit max_requests startCountry
        env).badTranslate = 0
    ∧ (run_scraper domains_map indices target_limit max_requests startCountry
        env).tracker.max_requests = max_requests
    ∧ (run_scraper domains_map indices target_limit max_requests startCountry
        env).tracker.request_count ≤ max_requests + 5 := by
  obtain ⟨h1, h2, h3, h4⟩ := countryLoop_facts indices target_limit env.translatorPresent
    env.seenInit max_requests domains_map startCountry.isNone startCountry
    { tracker := RequestTracker.init max_requests, stats := ScraperStats.init,
      stream := env.stream, seenLoads := [], seenSaves := [], progressSaves := [],
      saves := [], issued := 0, badIssued := 0, badTranslate := 0 }
    rfl (Nat.zero_le _) rfl rfl
  exact ⟨h3, h4, h1, h2⟩

/-- Claim C5: a run resumed from a persisted cursor `s` is identical —
tracker, statistics, seen-file loads and saves, progress saves and
output-log appends alike — to a cursor-free run over the country list
with every entry strictly before the first entry named `s` removed:
categories before the cursor are skipped entirely, with no lookup,
fetch or save performed for them, and iteration proceeds normally from
that category onward. -/
theorem claim_C5 (domains_map : List (String × List String)) (indices : List String)
    (target_limit max_requests : Nat) (s : String) (env : RunEnv) :
    run_scraper domains_map indices target_limit max_requests (some s) env
      = run_scraper (domains_map.dropWhile (fun p => p.1 != s)) indices target_limit
          max_requests none env := by
  unfold run_scraper
  dsimp only [Option.isNone]
  exact countryLoop_resume indices target_limit env.translatorPresent env.seenInit s
    domains_map _

end Scraper
